/-
  Verification of the 6-hour slot reporting / backfill subsystem of the
  Hospital_systeam repository (src/utils/reporting.ts and the scheduler hook).

  The embedding models:
  * the local wall-clock calendar (`LocalDT`) that JS `Date` exposes through
    `getFullYear/getMonth/getDate/getHours/...` (no DST; time-zone
    serialization is abstracted away, matching the IST deployment assumed in
    the source comments);
  * the string slot identifiers `"YYYY-MM-DD_HH"` with faithful decimal
    rendering (`natRepr`, `pad2`, as JS `String(n)` / `padStart(2,'0')`) and
    parsing (`slotIdToDate` modelling `new Date(date + "T" + hour + ":00:00")`);
  * the Firestore report collection as an association list keyed by slot id,
    with `setDoc`'s replace and merge semantics;
  * the aggregation pipeline `update6HourReport`, `generateScheduledReport`,
    `backfillMissingSlots` as store transformers, plus an `Except`-based layer
    for the try/catch error-flow behaviour.
-/
import Mathlib

set_option maxRecDepth 8000

namespace HospitalReporting

/-! ## Decimal strings: JS `String(n)` and `String(n).padStart(2, '0')` -/

/-- One decimal digit as a character (`0 ≤ d ≤ 9` gives `'0'`-`'9'`). -/
def digitChar (d : Nat) : Char :=
  match d with
  | 0 => '0' | 1 => '1' | 2 => '2' | 3 => '3' | 4 => '4'
  | 5 => '5' | 6 => '6' | 7 => '7' | 8 => '8' | 9 => '9'
  | _ => '*'

/-- Decimal digits of `n`, most significant first; `fuel` bounds recursion
depth (`n ≤ fuel` is always enough). -/
def natReprAux : Nat → Nat → List Char
  | 0, _ => []
  | fuel + 1, n => if n = 0 then [] else natReprAux fuel (n / 10) ++ [digitChar (n % 10)]

/-- Decimal rendering of a natural number, as JS `String(n)`. -/
def natRepr (n : Nat) : String := if n = 0 then "0" else ⟨natReprAux (n + 1) n⟩

/-- JS `String(n).padStart(2, '0')`. -/
def pad2 (n : Nat) : String := if n < 10 then "0" ++ natRepr n else natRepr n

/-- Value of a decimal digit character, if it is one. -/
def charToDigit (c : Char) : Option Nat :=
  if '0' ≤ c ∧ c ≤ '9' then some (c.toNat - 48) else none

/-- One step of decimal parsing. -/
def pushDigit (acc : Option Nat) (c : Char) : Option Nat :=
  match acc, charToDigit c with
  | some a, some d => some (a * 10 + d)
  | _, _ => none

/-- Parse a non-empty all-digit character list as a natural number (how the JS
ISO date parser reads the numeric fields; anything else is rejected). -/
def parseNatChars (l : List Char) : Option Nat :=
  if l = [] then none else l.foldl pushDigit (some 0)

theorem charToDigit_digitChar {d : Nat} (hd : d < 10) :
    charToDigit (digitChar d) = some d := by
  interval_cases d <;> decide

theorem foldl_pushDigit_none (l : List Char) : l.foldl pushDigit none = none := by
  induction l with
  | nil => rfl
  | cons c t ih => simpa [pushDigit] using ih

theorem natReprAux_zero (fuel : Nat) : natReprAux fuel 0 = [] := by
  cases fuel <;> simp [natReprAux]

/-- Folding the decimal rendering of `n` onto accumulator `a` yields
`a * 10 ^ (number of digits) + n`. -/
theorem foldl_pushDigit_natReprAux :
    ∀ fuel n a, n ≤ fuel →
      (natReprAux fuel n).foldl pushDigit (some a) =
        some (a * 10 ^ (natReprAux fuel n).length + n) := by
  intro fuel
  induction fuel with
  | zero =>
    intro n a hn
    interval_cases n
    simp [natReprAux]
  | succ fuel ih =>
    intro n a hn
    by_cases h0 : n = 0
    · subst h0; simp [natReprAux]
    · have hdiv : n / 10 ≤ fuel := by omega
      have hmod : n % 10 < 10 := Nat.mod_lt _ (by omega)
      simp only [natReprAux, if_neg h0, List.foldl_append, List.foldl_cons, List.foldl_nil,
        List.length_append, List.length_cons, List.length_nil]
      rw [ih (n / 10) a hdiv]
      simp only [pushDigit, charToDigit_digitChar hmod]
      have : (a * 10 ^ (natReprAux fuel (n / 10)).length + n / 10) * 10 + n % 10 =
          a * 10 ^ ((natReprAux fuel (n / 10)).length + (0 + 1)) + n := by
        have := Nat.div_add_mod n 10
        ring_nf
        omega
      rw [this]

theorem natReprAux_ne_nil {fuel n : Nat} (h0 : 0 < n) (hn : n ≤ fuel) :
    natReprAux fuel n ≠ [] := by
  cases fuel with
  | zero => omega
  | succ fuel =>
    simp only [natReprAux, if_neg (by omega : ¬ n = 0)]
    simp

/-- Parsing inverts rendering: `parseNatChars (natRepr n).data = some n`. -/
theorem parseNatChars_natRepr (n : Nat) : parseNatChars (natRepr n).data = some n := by
  by_cases h0 : n = 0
  · subst h0; decide
  · have hne : natReprAux (n + 1) n ≠ [] := natReprAux_ne_nil (by omega) (by omega)
    simp only [natRepr, if_neg h0]
    show parseNatChars (natReprAux (n + 1) n) = some n
    rw [parseNatChars, if_neg hne, foldl_pushDigit_natReprAux (n + 1) n 0 (by omega)]
    simp

/-- Parsing also inverts the 2-padded rendering. -/
theorem parseNatChars_pad2 (n : Nat) : parseNatChars (pad2 n).data = some n := by
  by_cases h : n < 10
  · by_cases h0 : n = 0
    · subst h0; decide
    · have hne : natReprAux (n + 1) n ≠ [] := natReprAux_ne_nil (by omega) (by omega)
      simp only [pad2, if_pos h, natRepr, if_neg h0]
      show parseNatChars ('0' :: natReprAux (n + 1) n) = some n
      rw [parseNatChars, if_neg (by simp)]
      simp only [List.foldl_cons]
      have hstep : pushDigit (some 0) '0' = some 0 := by decide
      rw [hstep, foldl_pushDigit_natReprAux (n + 1) n 0 (by omega)]
      simp
  · simp only [pad2, if_neg h]
    exact parseNatChars_natRepr n

/-- Every character in the rendering of a natural number is a decimal digit. -/
theorem mem_natReprAux_digit :
    ∀ fuel n c, c ∈ natReprAux fuel n → ∃ d, d < 10 ∧ c = digitChar d := by
  intro fuel
  induction fuel with
  | zero => intro n c hc; simp [natReprAux] at hc
  | succ fuel ih =>
    intro n c hc
    by_cases h0 : n = 0
    · subst h0; simp [natReprAux] at hc
    · simp only [natReprAux, if_neg h0, List.mem_append, List.mem_singleton] at hc
      rcases hc with hc | hc
      · exact ih _ _ hc
      · exact ⟨n % 10, Nat.mod_lt _ (by omega), hc⟩

theorem mem_natRepr_digit {n : Nat} {c : Char} (hc : c ∈ (natRepr n).data) :
    ∃ d, d < 10 ∧ c = digitChar d := by
  by_cases h0 : n = 0
  · subst h0
    simp only [natRepr, if_pos rfl] at hc
    have : c = '0' := by simpa using hc
    exact ⟨0, by omega, this⟩
  · simp only [natRepr, if_neg h0] at hc
    exact mem_natReprAux_digit _ _ _ hc

theorem mem_pad2_digit {n : Nat} {c : Char} (hc : c ∈ (pad2 n).data) :
    ∃ d, d < 10 ∧ c = digitChar d := by
  by_cases h : n < 10
  · simp only [pad2, if_pos h] at hc
    have : c ∈ ('0' :: (natRepr n).data) := by
      simpa [String.data_append] using hc
    rcases this with _ | ⟨_, hmem⟩
    · exact ⟨0, by omega, rfl⟩
    · exact mem_natRepr_digit (by assumption)
  · simp only [pad2, if_neg h] at hc
    exact mem_natRepr_digit hc

theorem digitChar_ne {d : Nat} (hd : d < 10) :
    digitChar d ≠ '-' ∧ digitChar d ≠ '_' := by
  interval_cases d <;> exact ⟨by decide, by decide⟩

theorem natRepr_no_sep {n : Nat} {c : Char} (hc : c ∈ (natRepr n).data) :
    c ≠ '-' ∧ c ≠ '_' := by
  obtain ⟨d, hd, rfl⟩ := mem_natRepr_digit hc
  exact digitChar_ne hd

theorem pad2_no_sep {n : Nat} {c : Char} (hc : c ∈ (pad2 n).data) :
    c ≠ '-' ∧ c ≠ '_' := by
  obtain ⟨d, hd, rfl⟩ := mem_pad2_digit hc
  exact digitChar_ne hd

/-! ## Splitting at a separator character (JS `String.split`) -/

/-- Split off the part of `l` before the first occurrence of `c`; `none` when
`c` does not occur.  `breakAt c l = some (before, after)`. -/
def breakAt (c : Char) : List Char → Option (List Char × List Char)
  | [] => none
  | x :: xs =>
    if x = c then some ([], xs)
    else (breakAt c xs).map fun p => (x :: p.1, p.2)

theorem breakAt_of_not_mem {c : Char} {l : List Char} (h : c ∉ l) :
    breakAt c l = none := by
  induction l with
  | nil => rfl
  | cons x xs ih =>
    simp only [List.mem_cons, not_or] at h
    simp [breakAt, Ne.symm h.1, ih h.2]

/-- Skipping a separator-free chunk is transparent to `breakAt`. -/
theorem breakAt_skip {c : Char} {x : List Char} (rest : List Char) (h : c ∉ x) :
    breakAt c (x ++ rest) = (breakAt c rest).map fun p => (x ++ p.1, p.2) := by
  induction x with
  | nil => simp
  | cons a as ih =>
    simp only [List.mem_cons, not_or] at h
    have hrw := ih h.2
    simp only [List.cons_append, breakAt, if_neg (Ne.symm h.1), List.append_eq]
    rw [hrw]
    cases breakAt c rest <;> simp

theorem breakAt_cons_self {c : Char} {b : List Char} : breakAt c (c :: b) = some ([], b) := by
  simp [breakAt]

theorem breakAt_append {c : Char} {a b : List Char} (h : c ∉ a) :
    breakAt c (a ++ c :: b) = some (a, b) := by
  rw [breakAt_skip _ h, breakAt_cons_self]
  simp

/-! ## Local calendar date-times: the observable state of a JS `Date`
(`getFullYear / getMonth+1 / getDate / getHours / getMinutes / getSeconds`),
in the facility's local time zone (no DST, as in the IST deployment the
source comments assume). -/

def isLeap (y : Nat) : Bool := (y % 4 == 0 && y % 100 != 0) || y % 400 == 0

def daysInMonth (y : Nat) (m : Nat) : Nat :=
  if m = 2 then (if isLeap y then 29 else 28)
  else if m = 4 ∨ m = 6 ∨ m = 9 ∨ m = 11 then 30
  else 31

structure LocalDT where
  year : Nat
  month : Nat
  day : Nat
  hour : Nat
  minute : Nat
  second : Nat
deriving DecidableEq, Repr

def LocalDT.Valid (t : LocalDT) : Prop :=
  1 ≤ t.month ∧ t.month ≤ 12 ∧ 1 ≤ t.day ∧ t.day ≤ daysInMonth t.year t.month ∧
    t.hour ≤ 23 ∧ t.minute ≤ 59 ∧ t.second ≤ 59

instance (t : LocalDT) : Decidable t.Valid := by unfold LocalDT.Valid; infer_instance

/-- Linear position of the calendar date.  On valid dates this orders exactly
like the civil calendar (month < 13 and day < 32 keep the places disjoint). -/
def LocalDT.dateKey (t : LocalDT) : Nat := (t.year * 13 + t.month) * 32 + t.day

/-- Seconds since local midnight. -/
def LocalDT.tod (t : LocalDT) : Nat := t.hour * 3600 + t.minute * 60 + t.second

/-- Linear position of the date-time; on valid date-times this orders exactly
like the epoch-milliseconds value a JS `Date.getTime()` comparison uses. -/
def LocalDT.key (t : LocalDT) : Nat := t.dateKey * 86400 + t.tod

/-- JS `setDate(getDate() + 1)` on the last day of a month rolls over. -/
def nextDay (t : LocalDT) : LocalDT :=
  if t.day < daysInMonth t.year t.month then { t with day := t.day + 1 }
  else if t.month < 12 then { t with month := t.month + 1, day := 1 }
  else { t with year := t.year + 1, month := 1, day := 1 }

/-- The calendar day before `t` (used by 6-hour steps across midnight). -/
def prevDay (t : LocalDT) : LocalDT :=
  if 1 < t.day then { t with day := t.day - 1 }
  else if 1 < t.month then { t with month := t.month - 1, day := daysInMonth t.year (t.month - 1) }
  else { t with year := t.year - 1, month := 12, day := 31 }

/-- `new Date(t.getTime() + 6*60*60*1000)` on a DST-free local clock. -/
def addSixHours (t : LocalDT) : LocalDT :=
  if t.hour + 6 < 24 then { t with hour := t.hour + 6 }
  else { nextDay t with hour := t.hour + 6 - 24 }

/-- `new Date(t.getTime() - 6*60*60*1000)` on a DST-free local clock. -/
def subSixHours (t : LocalDT) : LocalDT :=
  if 6 ≤ t.hour then { t with hour := t.hour - 6 }
  else { prevDay t with hour := t.hour + 18 }

theorem daysInMonth_pos (y m : Nat) : 1 ≤ daysInMonth y m := by
  unfold daysInMonth; split_ifs <;> omega

theorem daysInMonth_le_31 (y m : Nat) : daysInMonth y m ≤ 31 := by
  unfold daysInMonth; split_ifs <;> omega

theorem nextDay_valid {t : LocalDT} (ht : t.Valid) : (nextDay t).Valid := by
  obtain ⟨h1, h2, h3, h4, h5, h6, h7⟩ := ht
  have p1 := daysInMonth_pos t.year (t.month + 1)
  have p2 := daysInMonth_pos (t.year + 1) 1
  unfold nextDay LocalDT.Valid
  split_ifs with c1 c2 <;> refine ⟨?_, ?_, ?_, ?_, ?_, ?_, ?_⟩ <;> simp <;> omega

theorem prevDay_valid {t : LocalDT} (ht : t.Valid) : (prevDay t).Valid := by
  obtain ⟨h1, h2, h3, h4, h5, h6, h7⟩ := ht
  have p1 := daysInMonth_pos t.year (t.month - 1)
  have d31 : daysInMonth (t.year - 1) 12 = 31 := by simp [daysInMonth]
  unfold prevDay LocalDT.Valid
  split_ifs with c1 c2 <;> refine ⟨?_, ?_, ?_, ?_, ?_, ?_, ?_⟩ <;> simp <;> omega

theorem addSixHours_valid {t : LocalDT} (ht : t.Valid) : (addSixHours t).Valid := by
  have hn := nextDay_valid ht
  obtain ⟨n1, n2, n3, n4, n5, n6, n7⟩ := hn
  obtain ⟨h1, h2, h3, h4, h5, h6, h7⟩ := ht
  unfold addSixHours LocalDT.Valid
  split_ifs with c1 <;> refine ⟨?_, ?_, ?_, ?_, ?_, ?_, ?_⟩ <;> simp <;> omega

theorem subSixHours_valid {t : LocalDT} (ht : t.Valid) : (subSixHours t).Valid := by
  have hp := prevDay_valid ht
  obtain ⟨n1, n2, n3, n4, n5, n6, n7⟩ := hp
  obtain ⟨h1, h2, h3, h4, h5, h6, h7⟩ := ht
  unfold subSixHours LocalDT.Valid
  split_ifs with c1 <;> refine ⟨?_, ?_, ?_, ?_, ?_, ?_, ?_⟩ <;> simp <;> omega

theorem tod_lt {t : LocalDT} (ht : t.Valid) : t.tod < 86400 := by
  obtain ⟨_, _, _, _, h5, h6, h7⟩ := ht
  unfold LocalDT.tod; omega

theorem dateKey_lt_nextDay {t : LocalDT} (ht : t.Valid) :
    t.dateKey < (nextDay t).dateKey := by
  obtain ⟨h1, h2, h3, h4, _, _, _⟩ := ht
  have d31 := daysInMonth_le_31 t.year t.month
  unfold nextDay LocalDT.dateKey
  split_ifs with c1 c2 <;> simp <;> omega

/-- Among valid dates, `nextDay` is the immediate successor in date order. -/
theorem nextDay_dateKey_le {a b : LocalDT} (ha : a.Valid) (hb : b.Valid)
    (h : a.dateKey < b.dateKey) : (nextDay a).dateKey ≤ b.dateKey := by
  obtain ⟨a1, a2, a3, a4, _, _, _⟩ := ha
  obtain ⟨b1, b2, b3, b4, _, _, _⟩ := hb
  have da31 := daysInMonth_le_31 a.year a.month
  have db31 := daysInMonth_le_31 b.year b.month
  unfold nextDay
  by_cases hym : b.year = a.year ∧ b.month = a.month
  · have hbd : b.day ≤ daysInMonth a.year a.month := by rw [← hym.1, ← hym.2]; exact b4
    unfold LocalDT.dateKey at h ⊢
    split_ifs with c1 c2 <;> simp <;> omega
  · have hym' : ¬ (b.year = a.year ∧ b.month = a.month) := hym
    unfold LocalDT.dateKey at h ⊢
    split_ifs with c1 c2 <;> simp <;>
      (rcases Decidable.not_and_iff_or_not.mp hym' with hy | hm <;> omega)

/-! ## The slot calendar on strings (reporting.ts lines 22-65, hook part_002) -/

/-- reporting.ts `localDateStr`: LOCAL date as `YYYY-MM-DD`. -/
def localDateStr (d : LocalDT) : String :=
  natRepr d.year ++ "-" ++ pad2 d.month ++ "-" ++ pad2 d.day

/-- The slot label computed from the local hour:
`hour < 6 → "00"`, `< 12 → "06"`, `< 18 → "12"`, else `"18"`. -/
def slotOfHour (h : Nat) : String :=
  if h < 6 then "00" else if h < 12 then "06" else if h < 18 then "12" else "18"

/-- The slot-start hour for a local hour (numeric form of `slotOfHour`). -/
def slotFloor (h : Nat) : Nat :=
  if h < 6 then 0 else if h < 12 then 6 else if h < 18 then 12 else 18

theorem slotOfHour_eq_pad2 (h : Nat) : slotOfHour h = pad2 (slotFloor h) := by
  unfold slotOfHour slotFloor; split_ifs <;> decide

/-- reporting.ts `getCurrent6HourSlot()`: the current 6-hour slot id from the
LOCAL wall clock `now`. -/
def getCurrent6HourSlot (now : LocalDT) : String :=
  localDateStr now ++ "_" ++ slotOfHour now.hour

/-- reporting.ts `dateToSlotId(d)`: slot id of `d` using LOCAL time. -/
def dateToSlotId (d : LocalDT) : String :=
  natRepr d.year ++ "-" ++ pad2 d.month ++ "-" ++ pad2 d.day ++ "_" ++ slotOfHour d.hour

/-- Hook (part_002) `slotIdFor(d)`: same formula once more. -/
def slotIdFor (d : LocalDT) : String := localDateStr d ++ "_" ++ slotOfHour d.hour

/-- Parse `YYYY-MM-DD` as the JS ISO date parser does, rejecting non-numeric
fields and out-of-range months or days (out-of-range gives `Invalid Date`). -/
def parseDateYMD (l : List Char) : Option (Nat × Nat × Nat) :=
  match breakAt '-' l with
  | none => none
  | some (ys, rest) =>
    match breakAt '-' rest with
    | none => none
    | some (ms, ds) =>
      match parseNatChars ys, parseNatChars ms, parseNatChars ds with
      | some y, some m, some d =>
          if 1 ≤ m ∧ m ≤ 12 ∧ 1 ≤ d ∧ d ≤ daysInMonth y m then some (y, m, d) else none
      | _, _, _ => none

/-- reporting.ts `slotIdToDate(slotId)`: splits at `'_'` and models
`new Date(datePart + "T" + hourPart + ":00:00")`, i.e. the LOCAL start time
of the slot; `none` models an Invalid Date. -/
def slotIdToDate (slotId : String) : Option LocalDT :=
  match breakAt '_' slotId.data with
  | none => none
  | some (datePart, rest) =>
    let hourPart := match breakAt '_' rest with | some p => p.1 | none => rest
    match parseDateYMD datePart, parseNatChars hourPart with
    | some (y, m, d), some h => if h ≤ 23 then some ⟨y, m, d, h, 0, 0⟩ else none
    | _, _ => none

theorem natRepr_not_mem_dash {y : Nat} : '-' ∉ (natRepr y).data := by
  intro hc; exact (natRepr_no_sep hc).1 rfl

theorem natRepr_not_mem_us {y : Nat} : '_' ∉ (natRepr y).data := by
  intro hc; exact (natRepr_no_sep hc).2 rfl

theorem pad2_not_mem_dash {y : Nat} : '-' ∉ (pad2 y).data := by
  intro hc; exact (pad2_no_sep hc).1 rfl

theorem pad2_not_mem_us {y : Nat} : '_' ∉ (pad2 y).data := by
  intro hc; exact (pad2_no_sep hc).2 rfl

theorem breakAt_cons_ne {c x : Char} {xs : List Char} (h : x ≠ c) :
    breakAt c (x :: xs) = (breakAt c xs).map fun p => (x :: p.1, p.2) := by
  simp [breakAt, h]

/-- Parsing inverts formatting: a slot id rendered from numeric fields parses
back to the slot's local window start. -/
theorem slotIdToDate_format (y m d h : Nat) (hm : 1 ≤ m) (hm2 : m ≤ 12)
    (hd : 1 ≤ d) (hd2 : d ≤ daysInMonth y m) (hh : h ≤ 23) :
    slotIdToDate (natRepr y ++ "-" ++ pad2 m ++ "-" ++ pad2 d ++ "_" ++ pad2 h) =
      some ⟨y, m, d, h, 0, 0⟩ := by
  have hdata : (natRepr y ++ "-" ++ pad2 m ++ "-" ++ pad2 d ++ "_" ++ pad2 h).data =
      (natRepr y).data ++ '-' :: ((pad2 m).data ++ '-' :: ((pad2 d).data ++
        '_' :: (pad2 h).data)) := by
    simp [String.data_append]
  have hb : breakAt '_' ((natRepr y).data ++ '-' :: ((pad2 m).data ++ '-' :: ((pad2 d).data ++
        '_' :: (pad2 h).data))) =
      some ((natRepr y).data ++ '-' :: ((pad2 m).data ++ '-' :: (pad2 d).data),
        (pad2 h).data) := by
    rw [breakAt_skip _ natRepr_not_mem_us, breakAt_cons_ne (by decide),
      breakAt_skip _ pad2_not_mem_us, breakAt_cons_ne (by decide),
      breakAt_append pad2_not_mem_us]
    simp
  have hdate : parseDateYMD
      ((natRepr y).data ++ '-' :: ((pad2 m).data ++ '-' :: (pad2 d).data)) =
      some (y, m, d) := by
    unfold parseDateYMD
    simp only [breakAt_append natRepr_not_mem_dash, breakAt_append pad2_not_mem_dash,
      parseNatChars_natRepr, parseNatChars_pad2]
    simp [hm, hm2, hd, hd2]
  unfold slotIdToDate
  rw [hdata]
  simp only [hb, breakAt_of_not_mem pad2_not_mem_us, hdate, parseNatChars_pad2]
  simp [hh]

/-- Round trip from a valid local date-time through its slot id and back:
the parse yields the slot's window start. -/
theorem slotIdToDate_dateToSlotId {t : LocalDT} (ht : t.Valid) :
    slotIdToDate (dateToSlotId t) =
      some ⟨t.year, t.month, t.day, slotFloor t.hour, 0, 0⟩ := by
  obtain ⟨h1, h2, h3, h4, h5, _, _⟩ := ht
  have hf : slotFloor t.hour ≤ 23 := by unfold slotFloor; split_ifs <;> omega
  have : dateToSlotId t =
      natRepr t.year ++ "-" ++ pad2 t.month ++ "-" ++ pad2 t.day ++ "_" ++
        pad2 (slotFloor t.hour) := by
    unfold dateToSlotId; rw [slotOfHour_eq_pad2]
  rw [this]
  exact slotIdToDate_format t.year t.month t.day (slotFloor t.hour) h1 h2 h3 h4 hf

/-- Hook (part_002) `nextSlotBoundary(now)`: zero the seconds (and ms), then
either jump to `(floor(hour/6)+1)*6` o'clock today, or — when that is 24 —
roll to 00:00 of the next calendar day. -/
def nextSlotBoundary (now : LocalDT) : LocalDT :=
  let nextHour := (now.hour / 6 + 1) * 6
  let next : LocalDT := { now with second := 0 }
  if 24 ≤ nextHour then
    let rolled := nextDay next
    { rolled with hour := 0, minute := 0 }
  else
    { next with hour := nextHour, minute := 0 }

/-- A 6-hour slot window start: hour in {0,6,12,18}, zero minutes/seconds. -/
def IsSlotStart (w : LocalDT) : Prop :=
  (w.hour = 0 ∨ w.hour = 6 ∨ w.hour = 12 ∨ w.hour = 18) ∧ w.minute = 0 ∧ w.second = 0

theorem nextDay_time (t : LocalDT) :
    (nextDay t).hour = t.hour ∧ (nextDay t).minute = t.minute ∧
      (nextDay t).second = t.second := by
  unfold nextDay; split_ifs <;> exact ⟨rfl, rfl, rfl⟩

theorem slotFloor_le_18 (h : Nat) : slotFloor h ≤ 18 := by
  unfold slotFloor; split_ifs <;> omega

/-- The slot window start of `t` is at most `t` and `t` is strictly before the
window start plus six hours. -/
theorem slot_window {t : LocalDT} (ht : t.Valid) :
    (⟨t.year, t.month, t.day, slotFloor t.hour, 0, 0⟩ : LocalDT).key ≤ t.key ∧
      t.key < (addSixHours ⟨t.year, t.month, t.day, slotFloor t.hour, 0, 0⟩).key := by
  obtain ⟨h1, h2, h3, h4, h5, h6, h7⟩ := ht
  by_cases c1 : t.hour < 6
  · have hsf : slotFloor t.hour = 0 := by unfold slotFloor; rw [if_pos c1]
    rw [hsf]
    constructor
    · show ((t.year * 13 + t.month) * 32 + t.day) * 86400 + (0 * 3600 + 0 * 60 + 0) ≤
        ((t.year * 13 + t.month) * 32 + t.day) * 86400 +
          (t.hour * 3600 + t.minute * 60 + t.second)
      omega
    · show ((t.year * 13 + t.month) * 32 + t.day) * 86400 +
          (t.hour * 3600 + t.minute * 60 + t.second) <
        ((t.year * 13 + t.month) * 32 + t.day) * 86400 + ((0 + 6) * 3600 + 0 * 60 + 0)
      omega
  · by_cases c2 : t.hour < 12
    · have hsf : slotFloor t.hour = 6 := by
        unfold slotFloor; rw [if_neg c1, if_pos c2]
      rw [hsf]
      constructor
      · show ((t.year * 13 + t.month) * 32 + t.day) * 86400 + (6 * 3600 + 0 * 60 + 0) ≤
          ((t.year * 13 + t.month) * 32 + t.day) * 86400 +
            (t.hour * 3600 + t.minute * 60 + t.second)
        omega
      · show ((t.year * 13 + t.month) * 32 + t.day) * 86400 +
            (t.hour * 3600 + t.minute * 60 + t.second) <
          ((t.year * 13 + t.month) * 32 + t.day) * 86400 + ((6 + 6) * 3600 + 0 * 60 + 0)
        omega
    · by_cases c3 : t.hour < 18
      · have hsf : slotFloor t.hour = 12 := by
          unfold slotFloor; rw [if_neg c1, if_neg c2, if_pos c3]
        rw [hsf]
        constructor
        · show ((t.year * 13 + t.month) * 32 + t.day) * 86400 + (12 * 3600 + 0 * 60 + 0) ≤
            ((t.year * 13 + t.month) * 32 + t.day) * 86400 +
              (t.hour * 3600 + t.minute * 60 + t.second)
          omega
        · show ((t.year * 13 + t.month) * 32 + t.day) * 86400 +
              (t.hour * 3600 + t.minute * 60 + t.second) <
            ((t.year * 13 + t.month) * 32 + t.day) * 86400 + ((12 + 6) * 3600 + 0 * 60 + 0)
          omega
      · have hsf : slotFloor t.hour = 18 := by
          unfold slotFloor; rw [if_neg c1, if_neg c2, if_neg c3]
        rw [hsf]
        have hwv : (⟨t.year, t.month, t.day, 18, 0, 0⟩ : LocalDT).Valid :=
          ⟨h1, h2, h3, h4, by simp, by simp, by simp⟩
        have htime := nextDay_time (⟨t.year, t.month, t.day, 18, 0, 0⟩ : LocalDT)
        have hmin : (nextDay (⟨t.year, t.month, t.day, 18, 0, 0⟩ : LocalDT)).minute = 0 :=
          htime.2.1
        have hsec : (nextDay (⟨t.year, t.month, t.day, 18, 0, 0⟩ : LocalDT)).second = 0 :=
          htime.2.2
        have hdk : ((t.year * 13 + t.month) * 32 + t.day) <
            ((nextDay (⟨t.year, t.month, t.day, 18, 0, 0⟩ : LocalDT)).year * 13 +
              (nextDay (⟨t.year, t.month, t.day, 18, 0, 0⟩ : LocalDT)).month) * 32 +
              (nextDay (⟨t.year, t.month, t.day, 18, 0, 0⟩ : LocalDT)).day :=
          dateKey_lt_nextDay hwv
        constructor
        · show ((t.year * 13 + t.month) * 32 + t.day) * 86400 + (18 * 3600 + 0 * 60 + 0) ≤
            ((t.year * 13 + t.month) * 32 + t.day) * 86400 +
              (t.hour * 3600 + t.minute * 60 + t.second)
          omega
        · show ((t.year * 13 + t.month) * 32 + t.day) * 86400 +
              (t.hour * 3600 + t.minute * 60 + t.second) <
            (((nextDay (⟨t.year, t.month, t.day, 18, 0, 0⟩ : LocalDT)).year * 13 +
              (nextDay (⟨t.year, t.month, t.day, 18, 0, 0⟩ : LocalDT)).month) * 32 +
              (nextDay (⟨t.year, t.month, t.day, 18, 0, 0⟩ : LocalDT)).day) * 86400 +
              ((18 + 6 - 24) * 3600 +
                (nextDay (⟨t.year, t.month, t.day, 18, 0, 0⟩ : LocalDT)).minute * 60 +
                (nextDay (⟨t.year, t.month, t.day, 18, 0, 0⟩ : LocalDT)).second)
          rw [hmin, hsec]
          omega

/-- `nextSlotBoundary` produces a valid slot window start strictly after `t`. -/
theorem nextSlotBoundary_spec {t : LocalDT} (ht : t.Valid) :
    (nextSlotBoundary t).Valid ∧ IsSlotStart (nextSlotBoundary t) ∧
      t.key < (nextSlotBoundary t).key := by
  have hv' : (⟨t.year, t.month, t.day, t.hour, t.minute, 0⟩ : LocalDT).Valid := by
    obtain ⟨h1, h2, h3, h4, h5, h6, h7⟩ := ht
    exact ⟨h1, h2, h3, h4, h5, h6, by simp⟩
  obtain ⟨h1, h2, h3, h4, h5, h6, h7⟩ := ht
  simp only [nextSlotBoundary]
  split_ifs with hc
  · have hh18 : 18 ≤ t.hour := by omega
    have hnv := nextDay_valid hv'
    have hdk := dateKey_lt_nextDay hv'
    have htime := nextDay_time (⟨t.year, t.month, t.day, t.hour, t.minute, 0⟩ : LocalDT)
    obtain ⟨n1, n2, n3, n4, n5, n6, n7⟩ := hnv
    refine ⟨⟨n1, n2, n3, n4, by simp, by simp, by simp [htime.2.2]⟩,
      ⟨by simp, by simp, by simp [htime.2.2]⟩, ?_⟩
    simp only [LocalDT.key, LocalDT.dateKey, LocalDT.tod] at hdk ⊢
    simp [htime.2.2]
    omega
  · have hq : t.hour / 6 + 1 ≤ 3 := by omega
    refine ⟨⟨h1, h2, h3, h4, by simp; omega, by simp, by simp⟩,
      ⟨by simp; omega, by simp, by simp⟩, ?_⟩
    simp [LocalDT.key, LocalDT.dateKey, LocalDT.tod]
    omega

/-- `nextSlotBoundary t` is the least slot window start strictly after `t`. -/
theorem nextSlotBoundary_min {t w : LocalDT} (ht : t.Valid) (hw : w.Valid)
    (hs : IsSlotStart w) (hlt : t.key < w.key) :
    (nextSlotBoundary t).key ≤ w.key := by
  have hv' : (⟨t.year, t.month, t.day, t.hour, t.minute, 0⟩ : LocalDT).Valid := by
    obtain ⟨h1, h2, h3, h4, h5, h6, h7⟩ := ht
    exact ⟨h1, h2, h3, h4, h5, h6, by simp⟩
  have htodt := tod_lt ht
  have htodw := tod_lt hw
  obtain ⟨hsh, hsm, hss⟩ := hs
  have hwtod : w.tod = w.hour * 3600 := by
    simp [LocalDT.tod, hsm, hss]
  obtain ⟨h1, h2, h3, h4, h5, h6, h7⟩ := ht
  have hsplit : t.dateKey < w.dateKey ∨ (t.dateKey = w.dateKey ∧ t.tod < w.tod) := by
    simp only [LocalDT.key] at hlt
    omega
  simp only [nextSlotBoundary]
  split_ifs with hc
  · -- rollover branch: t.hour ≥ 18
    have hh18 : 18 ≤ t.hour := by omega
    have htime := nextDay_time (⟨t.year, t.month, t.day, t.hour, t.minute, 0⟩ : LocalDT)
    rcases hsplit with hd | ⟨hd, htod⟩
    · have hdn : (nextDay (⟨t.year, t.month, t.day, t.hour, t.minute, 0⟩ : LocalDT)).dateKey ≤
          w.dateKey := by
        apply nextDay_dateKey_le hv' hw
        simpa [LocalDT.dateKey] using hd
      have hsec := (nextDay_time (⟨t.year, t.month, t.day, t.hour, t.minute, 0⟩ : LocalDT)).2.2
      simp only [LocalDT.key, LocalDT.dateKey, LocalDT.tod] at hdn htodw hwtod hd ⊢
      simp [hsec]
      omega
    · -- same date: impossible, a slot start after 18:xx:yy would need hour > 18
      exfalso
      have : t.hour * 3600 ≤ t.tod := by simp [LocalDT.tod]; omega
      omega
  · -- same-day branch
    rcases hsplit with hd | ⟨hd, htod⟩
    · simp only [LocalDT.key, LocalDT.dateKey, LocalDT.tod] at hd htodw hwtod ⊢
      simp
      omega
    · simp only [LocalDT.key, LocalDT.dateKey, LocalDT.tod] at hd htod htodw hwtod ⊢
      simp
      omega

/-! ## Document shapes (reporting.ts interfaces; JS `undefined` is `none`) -/

/-- reporting.ts `PatientDoc`: the subset used for aggregation. -/
structure PatientDoc where
  status : Option String := none
  icuRequired : Option Bool := none
  diagnosis : Option String := none
  admissionDate : Option String := none
  dischargeDate : Option String := none
deriving DecidableEq, Repr

/-- The facility document's capacity fields read by the aggregator. -/
structure FacilityDoc where
  totalBeds : Option Nat := none
  icuBeds : Option Nat := none
  emergencyCapacity : Option Nat := none
deriving DecidableEq, Repr

/-- reporting.ts `ReportData`: every declared field, all optional (Firestore
documents are duck-typed).  Counts are naturals, ratios are rationals (the JS
floats carry these values exactly as computed expressions), flags booleans. -/
structure ReportData where
  slotId : Option String := none
  timestamp : Option String := none
  autoFilled : Option Bool := none
  scheduledRun : Option Bool := none
  facilityId : Option String := none
  occupiedBeds : Option Nat := none
  icuOccupied : Option Nat := none
  fluCases : Option Nat := none
  dengueCases : Option Nat := none
  covidCases : Option Nat := none
  emergencyCases : Option Nat := none
  newAdmissions : Option Nat := none
  discharges : Option Nat := none
  totalBeds : Option Nat := none
  icuBeds : Option Nat := none
  availableBeds : Option Nat := none
  bedUtilization : Option ℚ := none
  icuStressIndex : Option ℚ := none
  fluGrowthRate : Option ℚ := none
  riskScore : Option ℚ := none
  overCapacity : Option Bool := none
  icuCritical : Option Bool := none
  diseaseSpike : Option Bool := none
  date : Option String := none
  slot : Option String := none
deriving DecidableEq, Repr

/-! ## The report store: `facilities/{id}/reports`, one document per slot id -/

abbrev Store := List (String × ReportData)

def Store.get : Store → String → Option ReportData
  | [], _ => none
  | e :: rest, k => if e.1 = k then some e.2 else Store.get rest k

/-- `setDoc(..., { merge: false })`: full replace, or create. -/
def Store.set : Store → String → ReportData → Store
  | [], k, v => [(k, v)]
  | e :: rest, k, v => if e.1 = k then (k, v) :: rest else e :: Store.set rest k v

/-- Merge one optional field: the update wins where present. -/
def mor {α : Type} (upd old : Option α) : Option α :=
  match upd with
  | some v => some v
  | none => old

/-- Firestore field-merge of an update into an existing document. -/
def mergeInto (old upd : ReportData) : ReportData where
  slotId := mor upd.slotId old.slotId
  timestamp := mor upd.timestamp old.timestamp
  autoFilled := mor upd.autoFilled old.autoFilled
  scheduledRun := mor upd.scheduledRun old.scheduledRun
  facilityId := mor upd.facilityId old.facilityId
  occupiedBeds := mor upd.occupiedBeds old.occupiedBeds
  icuOccupied := mor upd.icuOccupied old.icuOccupied
  fluCases := mor upd.fluCases old.fluCases
  dengueCases := mor upd.dengueCases old.dengueCases
  covidCases := mor upd.covidCases old.covidCases
  emergencyCases := mor upd.emergencyCases old.emergencyCases
  newAdmissions := mor upd.newAdmissions old.newAdmissions
  discharges := mor upd.discharges old.discharges
  totalBeds := mor upd.totalBeds old.totalBeds
  icuBeds := mor upd.icuBeds old.icuBeds
  availableBeds := mor upd.availableBeds old.availableBeds
  bedUtilization := mor upd.bedUtilization old.bedUtilization
  icuStressIndex := mor upd.icuStressIndex old.icuStressIndex
  fluGrowthRate := mor upd.fluGrowthRate old.fluGrowthRate
  riskScore := mor upd.riskScore old.riskScore
  overCapacity := mor upd.overCapacity old.overCapacity
  icuCritical := mor upd.icuCritical old.icuCritical
  diseaseSpike := mor upd.diseaseSpike old.diseaseSpike
  date := mor upd.date old.date
  slot := mor upd.slot old.slot

/-- `setDoc(..., { merge: true })`: create, or field-merge into the existing
document. -/
def Store.setMerge (st : Store) (k : String) (upd : ReportData) : Store :=
  st.set k (mergeInto ((st.get k).getD {}) upd)

theorem Store.get_set_self (st : Store) (k : String) (v : ReportData) :
    (st.set k v).get k = some v := by
  induction st with
  | nil => simp [Store.set, Store.get]
  | cons e rest ih =>
    by_cases h : e.1 = k
    · simp [Store.set, Store.get, h]
    · simp [Store.set, Store.get, h, ih]

theorem Store.get_set_ne (st : Store) {k k' : String} (v : ReportData) (h : k' ≠ k) :
    (st.set k v).get k' = st.get k' := by
  induction st with
  | nil =>
    have : ¬ k = k' := fun he => h he.symm
    simp [Store.set, Store.get, this]
  | cons e rest ih =>
    by_cases he : e.1 = k
    · subst he
      simp only [Store.set, if_pos rfl, Store.get, if_neg (fun he' : e.1 = k' => h he'.symm)]
    · simp only [Store.set, if_neg he, Store.get]
      by_cases he' : e.1 = k'
      · simp [he']
      · simp [he', ih]

theorem Store.get_setMerge_self (st : Store) (k : String) (upd : ReportData) :
    (st.setMerge k upd).get k = some (mergeInto ((st.get k).getD {}) upd) :=
  Store.get_set_self st k _

theorem Store.get_setMerge_ne (st : Store) {k k' : String} (upd : ReportData) (h : k' ≠ k) :
    (st.setMerge k upd).get k' = st.get k' :=
  Store.get_set_ne st _ h

/-- Code-point comparison of strings, as `localeCompare` behaves on the
all-ASCII slot ids. -/
def strLtB : List Char → List Char → Bool
  | [], [] => false
  | [], _ :: _ => true
  | _ :: _, [] => false
  | a :: as, b :: bs =>
    if a.val < b.val then true else if b.val < a.val then false else strLtB as bs

def insertByKey (e : String × ReportData) :
    List (String × ReportData) → List (String × ReportData)
  | [] => [e]
  | x :: xs => if strLtB e.1.data x.1.data then e :: x :: xs else x :: insertByKey e xs

/-- The report documents sorted by id (`sortedDocs` in `backfillMissingSlots`,
`.sort((a, b) => a.id.localeCompare(b.id))`). -/
def sortByKey (st : Store) : List (String × ReportData) := st.foldr insertByKey []

/-! ## The aggregation pipeline (reporting.ts lines 204-344) -/

/-- `Number(x) || 0` on an optional count field. -/
def numOr0 (v : Option Nat) : Nat := v.getD 0

/-- `Number(x) || 10`: missing — and also zero, which is falsy — falls back
to 10 (the `emergencyCapacity` default). -/
def numOr10 (v : Option Nat) : Nat :=
  match v with
  | some n => if n = 0 then 10 else n
  | none => 10

/-- JS string falsiness of an optional string (`undefined` or `""`). -/
def jsFalsyStr (v : Option String) : Bool :=
  match v with
  | none => true
  | some s => s = ""

/-- `s.split('_')[0]` (the whole string when there is no underscore). -/
def splitUS0 (s : String) : String :=
  match breakAt '_' s.data with
  | some p => ⟨p.1⟩
  | none => s

/-- `s.split('_')[1]` (`none` models JS `undefined`). -/
def splitUS1 (s : String) : Option String :=
  match breakAt '_' s.data with
  | none => none
  | some (_, rest) =>
    match breakAt '_' rest with
    | some p => some ⟨p.1⟩
    | none => some ⟨rest⟩

/-- reporting.ts `getActiveAtSlot` predicate (lines 232-242): a patient is
active at `dateThreshold` when
`new Date(admissionDate + "T00:00:00") <= dateThreshold` and (discharge date
falsy, or status is not 'discharged', or
`new Date(dischargeDate + "T23:59:59") > dateThreshold`).  `threshold = none`
models an Invalid Date threshold: every date comparison with NaN is false. -/
def activeAtSlot (threshold : Option LocalDT) (p : PatientDoc) : Bool :=
  match threshold with
  | none => false
  | some w =>
    match p.admissionDate with
    | none => false
    | some s =>
      match parseDateYMD s.data with
      | none => false
      | some (y, m, d) =>
        if ¬ ((⟨y, m, d, 0, 0, 0⟩ : LocalDT).key ≤ w.key) then false
        else if jsFalsyStr p.dischargeDate || p.status != some "discharged" then true
        else
          match p.dischargeDate with
          | none => true
          | some ds =>
            match parseDateYMD ds.data with
            | none => false
            | some (y2, m2, d2) => decide (w.key < (⟨y2, m2, d2, 23, 59, 59⟩ : LocalDT).key)

/-- reporting.ts step 3: the active subset of the patient snapshot. -/
def getActiveAtSlot (patients : List PatientDoc) (dateThreshold : Option LocalDT) :
    List PatientDoc :=
  patients.filter (activeAtSlot dateThreshold)

/-- `p.diagnosis?.toLowerCase() === diag` count over the active subset. -/
def diagCount (active : List PatientDoc) (diag : String) : Nat :=
  (active.filter fun p =>
    match p.diagnosis with
    | some s => s.toLower == diag
    | none => false).length

/-- The slot id the aggregator actually writes to:
`targetDateStr ? targetDateStr + "_" + slotHour : slotId`, where `slotId` and
`slotHour` come from the current wall clock. -/
def currentSlotIdOf (now : LocalDT) (targetDateStr : Option String) : String :=
  match targetDateStr with
  | some tgt => tgt ++ "_" ++ ((splitUS1 (getCurrent6HourSlot now)).getD "undefined")
  | none => getCurrent6HourSlot now

/-- `targetSlotDateStr = targetDateStr || todayStr`. -/
def targetSlotDateStrOf (now : LocalDT) (targetDateStr : Option String) : String :=
  targetDateStr.getD (splitUS0 (getCurrent6HourSlot now))

/-- The previous slot's id: `dateToSlotId(new Date(slotTimestamp - 6h))`.
When `currentSlotId` does not parse, the JS arithmetic flows `NaN` and the
formatting produces the literal garbage key `"NaN-NaN-NaN_18"`. -/
def prevSlotIdOf (now : LocalDT) (targetDateStr : Option String) : String :=
  match slotIdToDate (currentSlotIdOf now targetDateStr) with
  | some ts => dateToSlotId (subSixHours ts)
  | none => "NaN-NaN-NaN_18"

/-- Steps 1-7 of `update6HourReport`: the payload written by `setDoc` (lines
290-317), as a function of the wall clock, the optional target date, the
patient snapshot, the facility document and the previous slot's stored
report.  Note that neither `autoFilled` nor `scheduledRun` is in the
payload. -/
def computeReportPayload (facilityId : String) (now : LocalDT)
    (targetDateStr : Option String) (patients : List PatientDoc)
    (facilityDoc : Option FacilityDoc) (prevData : Option ReportData)
    (nowISO : String) : ReportData :=
  let currentSlotId := currentSlotIdOf now targetDateStr
  let targetSlotDateStr := targetSlotDateStrOf now targetDateStr
  let slotTimestamp? := slotIdToDate currentSlotId
  let totalBeds := numOr0 (facilityDoc.bind (·.totalBeds))
  let icuBeds := numOr0 (facilityDoc.bind (·.icuBeds))
  let emergencyCapacity := numOr10 (facilityDoc.bind (·.emergencyCapacity))
  let activePatients := getActiveAtSlot patients slotTimestamp?
  let occupiedBeds := activePatients.length
  let icuOccupied := (activePatients.filter fun p => p.icuRequired == some true).length
  let fluCases := diagCount activePatients "flu"
  let dengueCases := diagCount activePatients "dengue"
  let covidCases := diagCount activePatients "covid"
  let emergencyCases := (activePatients.filter fun p => p.status == some "critical").length
  let newAdmissions :=
    (patients.filter fun p => p.admissionDate == some targetSlotDateStr).length
  let discharges :=
    (patients.filter fun p =>
      p.status == some "discharged" && p.dischargeDate == some targetSlotDateStr).length
  let availableBeds := totalBeds - occupiedBeds
  let bedUtilization : ℚ := if 0 < totalBeds then (occupiedBeds : ℚ) / (totalBeds : ℚ) else 0
  let icuStressIndex : ℚ := if 0 < icuBeds then (icuOccupied : ℚ) / (icuBeds : ℚ) else 0
  let normalizedEmergency : ℚ := (emergencyCases : ℚ) / (emergencyCapacity : ℚ)
  let fluGrowthRate : ℚ :=
    match prevData with
    | some pd =>
      match pd.fluCases with
      | some pf => if 0 < pf then ((fluCases : ℚ) - (pf : ℚ)) / (pf : ℚ) else 0
      | none => 0
    | none => 0
  let riskScore : ℚ :=
    icuStressIndex * 0.4 + bedUtilization * 0.3 + min 1 normalizedEmergency * 0.3
  { facilityId := some facilityId
    slotId := some currentSlotId
    timestamp := some nowISO
    date := some targetSlotDateStr
    slot := splitUS1 currentSlotId
    occupiedBeds := some occupiedBeds
    icuOccupied := some icuOccupied
    fluCases := some fluCases
    dengueCases := some dengueCases
    covidCases := some covidCases
    emergencyCases := some emergencyCases
    newAdmissions := some newAdmissions
    discharges := some discharges
    totalBeds := some totalBeds
    icuBeds := some icuBeds
    availableBeds := some availableBeds
    bedUtilization := some bedUtilization
    icuStressIndex := some icuStressIndex
    fluGrowthRate := some fluGrowthRate
    riskScore := some riskScore
    overCapacity := some (decide ((0.85 : ℚ) < bedUtilization))
    icuCritical := some (decide ((0.9 : ℚ) < icuStressIndex))
    diseaseSpike := some (decide ((0.4 : ℚ) < fluGrowthRate)) }

/-- reporting.ts `update6HourReport` as a transformer of the reports store
(every Firestore operation succeeds here; the Except layer below models the
failure flow).  `now` is the wall clock, `nowISO` the serialized
`new Date().toISOString()`; the patient snapshot and the facility document
live in other collections and are passed in. -/
def update6HourReport (facilityId : String) (now : LocalDT) (nowISO : String)
    (patients : List PatientDoc) (facilityDoc : Option FacilityDoc)
    (targetDateStr : Option String) (st : Store) : Store :=
  if facilityId = "" then st
  else
    let currentSlotId := currentSlotIdOf now targetDateStr
    let prevSlotId := prevSlotIdOf now targetDateStr
    let payload := computeReportPayload facilityId now targetDateStr patients facilityDoc
      (st.get prevSlotId) nowISO
    st.setMerge currentSlotId payload

/-- reporting.ts `generateScheduledReport`: re-runs the aggregation passing
only the DATE part of the requested slot id, then merges
`{ scheduledRun: true }` into the document at the requested slot id. -/
def generateScheduledReport (facilityId : String) (now : LocalDT) (nowISO : String)
    (patients : List PatientDoc) (facilityDoc : Option FacilityDoc)
    (slotId : String) (st : Store) : Store :=
  if facilityId = "" ∨ slotId = "" then st
  else
    let dateStr := splitUS0 slotId
    let st1 := update6HourReport facilityId now nowISO patients facilityDoc (some dateStr) st
    st1.setMerge slotId { scheduledRun := some true }

/-- `Date.prototype.toISOString` for a local date-time (the time-zone
conversion is irrelevant to every claim, so the local fields are rendered). -/
def toISOString (t : LocalDT) : String :=
  localDateStr t ++ "T" ++ pad2 t.hour ++ ":" ++ pad2 t.minute ++ ":" ++ pad2 t.second

/-- The synthesized document for a missing slot (`backfillMissingSlots` lines
149-172): the destructuring drops `timestamp`, `slotId`, `autoFilled` and
`scheduledRun` from the copied baseline, and the payload then overwrites
those four plus `facilityId`, `date` and `slot`; every other field of the
baseline is carried over. -/
def backfillPayload (lastKnownData : ReportData)
    (facilityId missingSlotId datePart slotHour tsISO : String) : ReportData :=
  { lastKnownData with
      facilityId := some facilityId
      slotId := some missingSlotId
      date := some datePart
      slot := some slotHour
      autoFilled := some true
      scheduledRun := some false
      timestamp := some tsISO }

/-- The gap-filling `while` loop of `backfillMissingSlots` (lines 137-179).
`fuel` bounds the number of iterations (each source iteration advances the
cursor six hours toward "now", so a large enough fuel always exists).
State: the cursor `lastSlotDate`, the forward-fill baseline `lastKnownData`,
the known ids `existing`, and the store. -/
def backfillLoop (facilityId : String) (sortedDocs : List (String × ReportData))
    (currentSlotDate : Option LocalDT) :
    Nat → LocalDT → ReportData → List String → Store → (List String × Store)
  | 0, _, _, existing, st => (existing, st)
  | fuel + 1, lastSlotDate, lastKnownData, existing, st =>
    let cond : Bool := match currentSlotDate with
      | some c => decide ((addSixHours lastSlotDate).key < c.key)
      | none => false
    if cond then
      let lastSlotDate' := addSixHours lastSlotDate
      let missingSlotId := dateToSlotId lastSlotDate'
      if missingSlotId ∈ existing then
        let lastKnownData' := match sortedDocs.find? (fun e => e.1 == missingSlotId) with
          | some e => e.2
          | none => lastKnownData
        backfillLoop facilityId sortedDocs currentSlotDate fuel lastSlotDate' lastKnownData'
          existing st
      else
        let payload := backfillPayload lastKnownData facilityId missingSlotId
          (splitUS0 missingSlotId) ((splitUS1 missingSlotId).getD "undefined")
          (toISOString lastSlotDate')
        backfillLoop facilityId sortedDocs currentSlotDate fuel lastSlotDate' payload
          (missingSlotId :: existing) (st.set missingSlotId payload)
    else (existing, st)

/-- reporting.ts `backfillMissingSlots` (every store operation succeeds here;
the Except layer models the failure flow).  Sorts the existing report ids,
walks from the LATEST one forward in 6-hour steps to "now" forward-filling
missing documents, then generates the current slot live when it is absent. -/
def backfillMissingSlots (facilityId : String) (now : LocalDT) (nowISO : String)
    (patients : List PatientDoc) (facilityDoc : Option FacilityDoc)
    (fuel : Nat) (st : Store) : Store :=
  if facilityId = "" then st
  else
    let currentSlotId := getCurrent6HourSlot now
    let currentSlotDate := slotIdToDate currentSlotId
    let docs := sortByKey st
    if docs.isEmpty then
      generateScheduledReport facilityId now nowISO patients facilityDoc currentSlotId st
    else
      let existingSlotIds := docs.map (·.1)
      match docs.getLast? with
      | none => st
      | some lastDoc =>
        match slotIdToDate lastDoc.1 with
        | none =>
          -- Invalid Date cursor: every NaN comparison is false, the loop exits
          if currentSlotId ∈ existingSlotIds then st
          else generateScheduledReport facilityId now nowISO patients facilityDoc
            currentSlotId st
        | some lastSlotDate =>
          let res := backfillLoop facilityId docs currentSlotDate fuel lastSlotDate
            lastDoc.2 existingSlotIds st
          if currentSlotId ∈ res.1 then res.2
          else generateScheduledReport facilityId now nowISO patients facilityDoc
            currentSlotId res.2

/-! ## Error flow: each Firestore operation may fail.  A `StoreOps` value is
one behaviour of the store: what every read and write returns, `Except.error`
being a rejected promise. -/

structure StoreOps where
  listReports : Except Unit (List (String × ReportData))
  listPatients : Except Unit (List PatientDoc)
  getFacility : Except Unit (Option FacilityDoc)
  getReport : String → Except Unit (Option ReportData)
  setReport : String → ReportData → Bool → Except Unit Unit

/-- `update6HourReport`'s error flow: the whole body — patient read, facility
read, previous-report read and the final write — sits inside try/catch, and
the catch only logs (lines 216-322). -/
def update6HourReportE (ops : StoreOps) (facilityId : String) (now : LocalDT)
    (nowISO : String) (targetDateStr : Option String) : Except Unit Unit :=
  if facilityId = "" then .ok ()
  else
    Except.tryCatch
      (do
        let patients ← ops.listPatients
        let facilityDoc ← ops.getFacility
        let prevData ← ops.getReport (prevSlotIdOf now targetDateStr)
        ops.setReport (currentSlotIdOf now targetDateStr)
          (computeReportPayload facilityId now targetDateStr patients facilityDoc
            prevData nowISO)
          true)
      (fun _ => .ok ())

/-- `generateScheduledReport`'s error flow: the aggregation call swallows its
own failures, but the final `scheduledRun` merge write (line 343) is OUTSIDE
any try/catch, so its failure propagates to the caller. -/
def generateScheduledReportE (ops : StoreOps) (facilityId : String) (now : LocalDT)
    (nowISO : String) (slotId : String) : Except Unit Unit :=
  if facilityId = "" ∨ slotId = "" then .ok ()
  else
    (update6HourReportE ops facilityId now nowISO (some (splitUS0 slotId))).bind fun _ =>
      ops.setReport slotId { scheduledRun := some true } true

/-- The backfill loop's error flow: each synthesized write can fail, aborting
the remaining walk (the failure is caught by `backfillMissingSlotsE`). -/
def backfillLoopE (ops : StoreOps) (facilityId : String)
    (sortedDocs : List (String × ReportData)) (currentSlotDate : Option LocalDT) :
    Nat → LocalDT → ReportData → List String → Except Unit (List String)
  | 0, _, _, existing => .ok existing
  | fuel + 1, lastSlotDate, lastKnownData, existing =>
    let cond : Bool := match currentSlotDate with
      | some c => decide ((addSixHours lastSlotDate).key < c.key)
      | none => false
    if cond then
      let lastSlotDate' := addSixHours lastSlotDate
      let missingSlotId := dateToSlotId lastSlotDate'
      if missingSlotId ∈ existing then
        let lastKnownData' := match sortedDocs.find? (fun e => e.1 == missingSlotId) with
          | some e => e.2
          | none => lastKnownData
        backfillLoopE ops facilityId sortedDocs currentSlotDate fuel lastSlotDate'
          lastKnownData' existing
      else
        let payload := backfillPayload lastKnownData facilityId missingSlotId
          (splitUS0 missingSlotId) ((splitUS1 missingSlotId).getD "undefined")
          (toISOString lastSlotDate')
        (ops.setReport missingSlotId payload false).bind fun _ =>
          backfillLoopE ops facilityId sortedDocs currentSlotDate fuel lastSlotDate' payload
            (missingSlotId :: existing)
    else .ok existing

/-- `backfillMissingSlots`'s error flow: everything — the reports read, the
loop's writes, and the `generateScheduledReport` calls — is inside try/catch
whose handler only logs (lines 114-188). -/
def backfillMissingSlotsE (ops : StoreOps) (facilityId : String) (now : LocalDT)
    (nowISO : String) (fuel : Nat) : Except Unit Unit :=
  if facilityId = "" then .ok ()
  else
    Except.tryCatch
      (do
        let currentSlotId := getCurrent6HourSlot now
        let reports ← ops.listReports
        let docs := reports.foldr insertByKey []
        if docs.isEmpty then
          generateScheduledReportE ops facilityId now nowISO currentSlotId
        else
          let existingSlotIds := docs.map (·.1)
          match docs.getLast? with
          | none => .ok ()
          | some lastDoc =>
            match slotIdToDate lastDoc.1 with
            | none =>
              if currentSlotId ∈ existingSlotIds then .ok ()
              else generateScheduledReportE ops facilityId now nowISO currentSlotId
            | some lastSlotDate =>
              (backfillLoopE ops facilityId docs (slotIdToDate currentSlotId)
                  fuel lastSlotDate lastDoc.2 existingSlotIds).bind fun existing =>
                if currentSlotId ∈ existing then .ok ()
                else generateScheduledReportE ops facilityId now nowISO currentSlotId)
      (fun _ => .ok ())

theorem tryCatch_ok (e : Except Unit Unit) :
    Except.tryCatch e (fun _ => Except.ok ()) = .ok () := by
  cases e with
  | error e => rfl
  | ok a => cases a; rfl

/-- A store behaviour whose every write fails (reads succeed; one report for
`2026-01-01_00` exists, the patient list is empty, the facility document is
absent). -/
def allWritesFailOps : StoreOps where
  listReports := .ok [("2026-01-01_00", {})]
  listPatients := .ok []
  getFacility := .ok none
  getReport := fun _ => .ok none
  setReport := fun _ _ _ => .error ()

/-! ## Supporting lemmas about the slot calendar and the aggregation keys -/

instance (w : LocalDT) : Decidable (IsSlotStart w) := by
  unfold IsSlotStart; infer_instance

/-- `getCurrent6HourSlot` and `dateToSlotId` are literally the same formula. -/
theorem getCurrent6HourSlot_eq_dateToSlotId (t : LocalDT) :
    getCurrent6HourSlot t = dateToSlotId t := rfl

/-- So is the hook's `slotIdFor`. -/
theorem slotIdFor_eq_dateToSlotId (t : LocalDT) : slotIdFor t = dateToSlotId t := rfl

theorem splitUS1_fmt (y m d h : Nat) :
    splitUS1 (natRepr y ++ "-" ++ pad2 m ++ "-" ++ pad2 d ++ "_" ++ pad2 h) =
      some (pad2 h) := by
  have hdata : (natRepr y ++ "-" ++ pad2 m ++ "-" ++ pad2 d ++ "_" ++ pad2 h).data =
      (natRepr y).data ++ '-' :: ((pad2 m).data ++ '-' :: ((pad2 d).data ++
        '_' :: (pad2 h).data)) := by
    simp [String.data_append]
  have hb : breakAt '_' ((natRepr y).data ++ '-' :: ((pad2 m).data ++ '-' :: ((pad2 d).data ++
        '_' :: (pad2 h).data))) =
      some ((natRepr y).data ++ '-' :: ((pad2 m).data ++ '-' :: (pad2 d).data),
        (pad2 h).data) := by
    rw [breakAt_skip _ natRepr_not_mem_us, breakAt_cons_ne (by decide),
      breakAt_skip _ pad2_not_mem_us, breakAt_cons_ne (by decide),
      breakAt_append pad2_not_mem_us]
    simp
  unfold splitUS1
  rw [hdata]
  simp only [hb, breakAt_of_not_mem pad2_not_mem_us]

theorem splitUS1_dateToSlotId (t : LocalDT) :
    splitUS1 (dateToSlotId t) = some (slotOfHour t.hour) := by
  have h1 : dateToSlotId t = natRepr t.year ++ "-" ++ pad2 t.month ++ "-" ++ pad2 t.day ++
      "_" ++ pad2 (slotFloor t.hour) := by
    unfold dateToSlotId; rw [slotOfHour_eq_pad2]
  rw [h1, splitUS1_fmt, slotOfHour_eq_pad2]

theorem prevDay_time (t : LocalDT) :
    (prevDay t).hour = t.hour ∧ (prevDay t).minute = t.minute ∧
      (prevDay t).second = t.second := by
  unfold prevDay; split_ifs <;> exact ⟨rfl, rfl, rfl⟩

theorem dateKey_prevDay_lt {t : LocalDT} (ht : t.Valid) (hy : 1 ≤ t.year) :
    (prevDay t).dateKey < t.dateKey := by
  obtain ⟨h1, h2, h3, h4, _, _, _⟩ := ht
  have d31a := daysInMonth_le_31 t.year (t.month - 1)
  unfold prevDay LocalDT.dateKey
  split_ifs with c1 c2 <;> simp <;> omega

/-- Six hours earlier is strictly earlier (CE years: `1 ≤ year`). -/
theorem key_subSixHours_lt {t : LocalDT} (ht : t.Valid) (hy : 1 ≤ t.year) :
    (subSixHours t).key < t.key := by
  obtain ⟨h1, h2, h3, h4, h5, h6, h7⟩ := ht
  by_cases c : 6 ≤ t.hour
  · unfold subSixHours; rw [if_pos c]
    show ((t.year * 13 + t.month) * 32 + t.day) * 86400 +
        ((t.hour - 6) * 3600 + t.minute * 60 + t.second) <
      ((t.year * 13 + t.month) * 32 + t.day) * 86400 +
        (t.hour * 3600 + t.minute * 60 + t.second)
    omega
  · unfold subSixHours; rw [if_neg c]
    have hpd : ((prevDay t).year * 13 + (prevDay t).month) * 32 + (prevDay t).day <
        (t.year * 13 + t.month) * 32 + t.day :=
      dateKey_prevDay_lt ⟨h1, h2, h3, h4, h5, h6, h7⟩ hy
    have hpt := prevDay_time t
    show (((prevDay t).year * 13 + (prevDay t).month) * 32 + (prevDay t).day) * 86400 +
        ((t.hour + 18) * 3600 + (prevDay t).minute * 60 + (prevDay t).second) <
      ((t.year * 13 + t.month) * 32 + t.day) * 86400 +
        (t.hour * 3600 + t.minute * 60 + t.second)
    rw [hpt.2.1, hpt.2.2]
    omega

theorem slotFloor_idem {h : Nat} (hs : h = 0 ∨ h = 6 ∨ h = 12 ∨ h = 18) :
    slotFloor h = h := by
  rcases hs with rfl | rfl | rfl | rfl <;> decide

/-- Stepping a slot start six hours back yields a slot start. -/
theorem subSixHours_slot_start {t : LocalDT} (hs : IsSlotStart t) :
    IsSlotStart (subSixHours t) := by
  obtain ⟨hsh, hsm, hss⟩ := hs
  by_cases c : 6 ≤ t.hour
  · unfold subSixHours; rw [if_pos c]
    refine ⟨?_, by simp [hsm], by simp [hss]⟩
    simp only
    omega
  · unfold subSixHours; rw [if_neg c]
    have hpt := prevDay_time t
    refine ⟨?_, by simp [hpt.2.1, hsm], by simp [hpt.2.2, hss]⟩
    simp only
    omega

/-- A slot-start date-time round-trips exactly through its slot id. -/
theorem slotIdToDate_dateToSlotId_slot_start {t : LocalDT} (ht : t.Valid)
    (hs : IsSlotStart t) : slotIdToDate (dateToSlotId t) = some t := by
  rcases t with ⟨y, mo, d, h, mi, s⟩
  obtain ⟨hsh, hsm, hss⟩ := hs
  simp only at hsh hsm hss
  subst hsm; subst hss
  rw [slotIdToDate_dateToSlotId ht]
  simp only
  rw [slotFloor_idem hsh]

/-- Well-formedness of the optional target date argument: absent, or a
rendered CE calendar date. -/
def WfTargetDate (tgt : Option String) : Prop :=
  tgt = none ∨ ∃ y m d, 1 ≤ y ∧ 1 ≤ m ∧ m ≤ 12 ∧ 1 ≤ d ∧ d ≤ daysInMonth y m ∧
    tgt = some (natRepr y ++ "-" ++ pad2 m ++ "-" ++ pad2 d)

/-- Under a valid clock and a well-formed target date, the slot id the
aggregator writes to parses to a valid slot window start. -/
theorem parse_currentSlotId {now : LocalDT} {tgt : Option String} (hnow : now.Valid)
    (hyear : 1 ≤ now.year) (htgt : WfTargetDate tgt) :
    ∃ ts : LocalDT, slotIdToDate (currentSlotIdOf now tgt) = some ts ∧ ts.Valid ∧
      IsSlotStart ts ∧ 1 ≤ ts.year := by
  have hsf18 := slotFloor_le_18 now.hour
  have hsfs : slotFloor now.hour = 0 ∨ slotFloor now.hour = 6 ∨ slotFloor now.hour = 12 ∨
      slotFloor now.hour = 18 := by
    unfold slotFloor; split_ifs <;> simp
  rcases htgt with rfl | ⟨y, m, d, hy, hm, hm2, hd, hd2, rfl⟩
  · obtain ⟨h1, h2, h3, h4, h5, h6, h7⟩ := hnow
    refine ⟨⟨now.year, now.month, now.day, slotFloor now.hour, 0, 0⟩, ?_, ?_, ?_, hyear⟩
    · show slotIdToDate (getCurrent6HourSlot now) = _
      rw [getCurrent6HourSlot_eq_dateToSlotId]
      exact slotIdToDate_dateToSlotId ⟨h1, h2, h3, h4, h5, h6, h7⟩
    · exact ⟨h1, h2, h3, h4, by simp; omega, by simp, by simp⟩
    · exact ⟨hsfs, rfl, rfl⟩
  · have hcur : currentSlotIdOf now
        (some (natRepr y ++ "-" ++ pad2 m ++ "-" ++ pad2 d)) =
        natRepr y ++ "-" ++ pad2 m ++ "-" ++ pad2 d ++ "_" ++ pad2 (slotFloor now.hour) := by
      unfold currentSlotIdOf
      rw [getCurrent6HourSlot_eq_dateToSlotId, splitUS1_dateToSlotId, slotOfHour_eq_pad2]
      rfl
    rw [hcur]
    refine ⟨⟨y, m, d, slotFloor now.hour, 0, 0⟩, ?_, ?_, ?_, hy⟩
    · exact slotIdToDate_format y m d _ hm hm2 hd hd2 (by omega)
    · exact ⟨hm, hm2, hd, hd2, by simp; omega, by simp, by simp⟩
    · exact ⟨hsfs, rfl, rfl⟩

/-- The previous slot's key always differs from the written slot's key. -/
theorem prevSlotId_ne_currentSlotId {now : LocalDT} {tgt : Option String}
    (hnow : now.Valid) (hyear : 1 ≤ now.year) (htgt : WfTargetDate tgt) :
    prevSlotIdOf now tgt ≠ currentSlotIdOf now tgt := by
  obtain ⟨ts, hts, htv, hss, hty⟩ := parse_currentSlotId hnow hyear htgt
  unfold prevSlotIdOf
  rw [hts]
  show dateToSlotId (subSixHours ts) ≠ currentSlotIdOf now tgt
  intro heq
  have h1 : slotIdToDate (dateToSlotId (subSixHours ts)) = some (subSixHours ts) :=
    slotIdToDate_dateToSlotId_slot_start (subSixHours_valid htv) (subSixHours_slot_start hss)
  rw [heq, hts] at h1
  have h2 : subSixHours ts = ts := (Option.some.inj h1).symm
  have hk := key_subSixHours_lt htv hty
  rw [h2] at hk
  exact lt_irrefl _ hk

/-! ## Characterizations of the aggregator's derived ratios -/

theorem computeReportPayload_bedUtilization (fid : String) (now : LocalDT)
    (tgt : Option String) (patients : List PatientDoc)
    (facilityDoc : Option FacilityDoc) (prevData : Option ReportData) (nowISO : String) :
    (computeReportPayload fid now tgt patients facilityDoc prevData nowISO).bedUtilization =
      some (if 0 < numOr0 (facilityDoc.bind (·.totalBeds)) then
        ((getActiveAtSlot patients (slotIdToDate (currentSlotIdOf now tgt))).length : ℚ) /
          (numOr0 (facilityDoc.bind (·.totalBeds)) : ℚ)
      else 0) := rfl

theorem computeReportPayload_icuStressIndex (fid : String) (now : LocalDT)
    (tgt : Option String) (patients : List PatientDoc)
    (facilityDoc : Option FacilityDoc) (prevData : Option ReportData) (nowISO : String) :
    (computeReportPayload fid now tgt patients facilityDoc prevData nowISO).icuStressIndex =
      some (if 0 < numOr0 (facilityDoc.bind (·.icuBeds)) then
        (((getActiveAtSlot patients (slotIdToDate (currentSlotIdOf now tgt))).filter
            fun p => p.icuRequired == some true).length : ℚ) /
          (numOr0 (facilityDoc.bind (·.icuBeds)) : ℚ)
      else 0) := rfl

theorem computeReportPayload_fluGrowthRate_guard (fid : String) (now : LocalDT)
    (tgt : Option String) (patients : List PatientDoc)
    (facilityDoc : Option FacilityDoc) (prevData : Option ReportData) (nowISO : String)
    (hprev : prevData = none ∨
      ∃ pd, prevData = some pd ∧ (pd.fluCases = none ∨ pd.fluCases = some 0)) :
    (computeReportPayload fid now tgt patients facilityDoc prevData nowISO).fluGrowthRate =
      some 0 := by
  rcases hprev with rfl | ⟨pd, rfl, hfc | hfc⟩
  · rfl
  · simp [computeReportPayload, hfc]
  · simp [computeReportPayload, hfc]

theorem mor_absorb {α : Type} (x y : Option α) : mor x (mor x y) = mor x y := by
  cases x <;> rfl

/-! ## The claims -/

/-- A store with reports for `2026-01-01_00` and `2026-01-01_12` but a gap at
`2026-01-01_06` (the input of the C1 analysis). -/
def gapStore : Store := [("2026-01-01_00", {}), ("2026-01-01_12", {})]

/-- C1: the claim says that after `backfillMissingSlots` completes, a report
exists for every 6-hour boundary from the earliest existing report through
the current slot, including gaps BETWEEN two existing reports.  The code
instead starts its walk at the LATEST existing report (contradicting its own
doc comment "Guarantees every 6-hour slot between the oldest existing report
and NOW is present"): with reports at `2026-01-01_00` and `2026-01-01_12`
and the clock inside the `2026-01-01_12` slot, the run changes nothing and
the interior slot `2026-01-01_06` is still missing afterwards. -/
theorem C1_backfill_leaves_interior_gap :
    backfillMissingSlots "facility-1" ⟨2026, 1, 1, 12, 30, 0⟩ "TS" [] none 10 gapStore =
        gapStore ∧
      getCurrent6HourSlot ⟨2026, 1, 1, 12, 30, 0⟩ = "2026-01-01_12" ∧
      gapStore.get "2026-01-01_00" = some {} ∧
      gapStore.get "2026-01-01_12" = some {} ∧
      gapStore.get "2026-01-01_06" = none := by
  refine ⟨by decide, by decide, by decide, by decide, by decide⟩

/-- C2: the claim says `generateScheduledReport(facilityId, slotId)` writes
the computed report document under exactly the requested slot id, even when
the requested hour label differs from the current wall-clock slot's hour.
The code forwards only the DATE part to `update6HourReport`, which rebuilds
the key as `targetDate_currentWallClockHour`: requesting `2026-01-01_00`
while the clock reads 06:30 stores the full report under `2026-01-01_06`,
and the requested key receives only the `scheduledRun` marker. -/
theorem C2_report_written_under_wrong_slot :
    ((generateScheduledReport "facility-1" ⟨2026, 1, 1, 6, 30, 0⟩ "TS" [] none
          "2026-01-01_00" []).get "2026-01-01_00").map (·.occupiedBeds) = some none ∧
      ((generateScheduledReport "facility-1" ⟨2026, 1, 1, 6, 30, 0⟩ "TS" [] none
          "2026-01-01_00" []).get "2026-01-01_00").map (·.scheduledRun) =
        some (some true) ∧
      ((generateScheduledReport "facility-1" ⟨2026, 1, 1, 6, 30, 0⟩ "TS" [] none
          "2026-01-01_00" []).get "2026-01-01_06").map (·.slotId) =
        some (some "2026-01-01_06") ∧
      ((generateScheduledReport "facility-1" ⟨2026, 1, 1, 6, 30, 0⟩ "TS" [] none
          "2026-01-01_00" []).get "2026-01-01_06").map (·.occupiedBeds) =
        some (some 0) := by
  refine ⟨by decide, by decide, by decide, by decide⟩

/-- C3 counterexample: the claim says every report persisted by a live
`update6HourReport` run has `autoFilled = false`.  The aggregator's payload
carries no `autoFilled` key at all, so a fresh aggregation over an empty
store produces a document whose `autoFilled` field is absent, not `false`. -/
theorem C3_aggregator_leaves_autoFilled_absent :
    ((update6HourReport "facility-1" ⟨2026, 1, 1, 6, 30, 0⟩ "TS" [] none none
        []).get "2026-01-01_06").map (·.autoFilled) = some none := by
  decide

/-- C3 amended: reports synthesized by the backfill forward-fill always carry
`autoFilled = true`; a live `update6HourReport` run never writes the
`autoFilled` field — under merge semantics the written document's
`autoFilled` equals whatever the document previously had (absent for a fresh
document, and an earlier `true` survives re-aggregation). -/
theorem C3_autoFilled_provenance (base : ReportData)
    (fid sid dp sh ts : String) (now : LocalDT) (nowISO : String)
    (patients : List PatientDoc) (facilityDoc : Option FacilityDoc)
    (tgt : Option String) (st : Store) (hfid : fid ≠ "") :
    (backfillPayload base fid sid dp sh ts).autoFilled = some true ∧
      ∃ r, (update6HourReport fid now nowISO patients facilityDoc tgt st).get
          (currentSlotIdOf now tgt) = some r ∧
        r.autoFilled = ((st.get (currentSlotIdOf now tgt)).getD {}).autoFilled := by
  refine ⟨rfl, ?_⟩
  unfold update6HourReport
  rw [if_neg hfid]
  exact ⟨_, Store.get_setMerge_self _ _ _, rfl⟩

/-- C3 witness: the amended statement at concrete inputs. -/
theorem C3_autoFilled_provenance_witness :
    (backfillPayload {} "facility-1" "2026-01-01_06" "2026-01-01" "06"
        "T").autoFilled = some true ∧
      ∃ r, (update6HourReport "facility-1" ⟨2026, 1, 1, 6, 30, 0⟩ "TS" [] none none
          []).get (currentSlotIdOf ⟨2026, 1, 1, 6, 30, 0⟩ none) = some r ∧
        r.autoFilled = ((Store.get []
          (currentSlotIdOf ⟨2026, 1, 1, 6, 30, 0⟩ none)).getD {}).autoFilled :=
  C3_autoFilled_provenance {} "facility-1" "2026-01-01_06" "2026-01-01" "06" "T"
    ⟨2026, 1, 1, 6, 30, 0⟩ "TS" [] none none [] (by decide)

/-- C6: the claim says store failures never escape `update6HourReport`,
`generateScheduledReport` or `backfillMissingSlots`.  The first and third
wrap their whole body in try/catch and are verified to swallow every
failure; but `generateScheduledReport` performs its final
`{ scheduledRun: true }` merge write OUTSIDE any try/catch, so when that
write fails the rejection propagates to its caller (the scheduler hook,
which does not catch it either). -/
theorem C6_generateScheduledReport_propagates_write_failure :
    generateScheduledReportE allWritesFailOps "facility-1" ⟨2026, 1, 1, 6, 30, 0⟩ "TS"
        "2026-01-01_00" = .error () ∧
      update6HourReportE allWritesFailOps "facility-1" ⟨2026, 1, 1, 6, 30, 0⟩ "TS" none =
        .ok () ∧
      backfillMissingSlotsE allWritesFailOps "facility-1" ⟨2026, 1, 1, 6, 30, 0⟩ "TS" 10 =
        .ok () ∧
      (∀ ops fid now nowISO tgt,
        ∃ u, update6HourReportE ops fid now nowISO tgt = .ok u) ∧
      (∀ ops fid now nowISO fuel,
        ∃ u, backfillMissingSlotsE ops fid now nowISO fuel = .ok u) := by
  refine ⟨by rfl, by rfl, by rfl, ?_, ?_⟩
  · intro ops fid now nowISO tgt
    unfold update6HourReportE
    split
    · exact ⟨(), rfl⟩
    · rw [tryCatch_ok]; exact ⟨(), rfl⟩
  · intro ops fid now nowISO fuel
    unfold backfillMissingSlotsE
    split
    · exact ⟨(), rfl⟩
    · rw [tryCatch_ok]; exact ⟨(), rfl⟩

/-- C9: a backfill-synthesized document equals its baseline on every field
except the slot identifier, calendar date, slot-hour label, timestamp,
facility identifier and the two provenance flags, which are overwritten. -/
theorem C9_backfill_copies_baseline (base : ReportData)
    (fid sid dp sh ts : String) :
    (backfillPayload base fid sid dp sh ts).occupiedBeds = base.occupiedBeds ∧
      (backfillPayload base fid sid dp sh ts).icuOccupied = base.icuOccupied ∧
      (backfillPayload base fid sid dp sh ts).fluCases = base.fluCases ∧
      (backfillPayload base fid sid dp sh ts).dengueCases = base.dengueCases ∧
      (backfillPayload base fid sid dp sh ts).covidCases = base.covidCases ∧
      (backfillPayload base fid sid dp sh ts).emergencyCases = base.emergencyCases ∧
      (backfillPayload base fid sid dp sh ts).newAdmissions = base.newAdmissions ∧
      (backfillPayload base fid sid dp sh ts).discharges = base.discharges ∧
      (backfillPayload base fid sid dp sh ts).totalBeds = base.totalBeds ∧
      (backfillPayload base fid sid dp sh ts).icuBeds = base.icuBeds ∧
      (backfillPayload base fid sid dp sh ts).availableBeds = base.availableBeds ∧
      (backfillPayload base fid sid dp sh ts).bedUtilization = base.bedUtilization ∧
      (backfillPayload base fid sid dp sh ts).icuStressIndex = base.icuStressIndex ∧
      (backfillPayload base fid sid dp sh ts).fluGrowthRate = base.fluGrowthRate ∧
      (backfillPayload base fid sid dp sh ts).riskScore = base.riskScore ∧
      (backfillPayload base fid sid dp sh ts).overCapacity = base.overCapacity ∧
      (backfillPayload base fid sid dp sh ts).icuCritical = base.icuCritical ∧
      (backfillPayload base fid sid dp sh ts).diseaseSpike = base.diseaseSpike ∧
      (backfillPayload base fid sid dp sh ts).slotId = some sid ∧
      (backfillPayload base fid sid dp sh ts).date = some dp ∧
      (backfillPayload base fid sid dp sh ts).slot = some sh ∧
      (backfillPayload base fid sid dp sh ts).timestamp = some ts ∧
      (backfillPayload base fid sid dp sh ts).facilityId = some fid ∧
      (backfillPayload base fid sid dp sh ts).autoFilled = some true ∧
      (backfillPayload base fid sid dp sh ts).scheduledRun = some false :=
  ⟨rfl, rfl, rfl, rfl, rfl, rfl, rfl, rfl, rfl, rfl, rfl, rfl, rfl, rfl, rfl, rfl, rfl,
    rfl, rfl, rfl, rfl, rfl, rfl, rfl, rfl⟩

/-- C10: every completed `generateScheduledReport(facilityId, slotId)` call
ends by merging `scheduledRun = true` into the document at the requested
`slotId` — creating it if the aggregation wrote elsewhere — so afterwards a
document at that key exists and has `scheduledRun = true`. -/
theorem C10_scheduledRun_marker (fid : String) (now : LocalDT) (nowISO : String)
    (patients : List PatientDoc) (facilityDoc : Option FacilityDoc)
    (slotId : String) (st : Store) (hfid : fid ≠ "") (hsid : slotId ≠ "") :
    ∃ r, (generateScheduledReport fid now nowISO patients facilityDoc slotId st).get
        slotId = some r ∧ r.scheduledRun = some true := by
  unfold generateScheduledReport
  rw [if_neg (by simp [hfid, hsid])]
  exact ⟨_, Store.get_setMerge_self _ _ _, rfl⟩

/-- C10 witness: concrete facility, requested slot different from the
wall-clock slot, empty store. -/
theorem C10_scheduledRun_marker_witness :
    ∃ r, (generateScheduledReport "facility-1" ⟨2026, 1, 1, 6, 30, 0⟩ "TS" [] none
        "2026-01-01_00" []).get "2026-01-01_00" = some r ∧
      r.scheduledRun = some true :=
  C10_scheduledRun_marker "facility-1" ⟨2026, 1, 1, 6, 30, 0⟩ "TS" [] none
    "2026-01-01_00" [] (by decide) (by decide)

/-- Two patients admitted before the slot under scrutiny (for C4). -/
def overCapPatients : List PatientDoc :=
  [{ admissionDate := some "2026-01-01", status := some "admitted" },
   { admissionDate := some "2026-01-01", status := some "admitted" }]

/-- A facility with a single bed (for C4). -/
def oneBedFacility : FacilityDoc := { totalBeds := some 1 }

/-- C4 counterexample: the claim says `bedUtilization` lies in `[0,1]`
whenever `totalBeds` is positive.  The code does not clamp: with
`totalBeds = 1` and two active patients the written ratio is `2 > 1`. -/
theorem C4_bedUtilization_exceeds_one :
    numOr0 ((some oneBedFacility).bind (·.totalBeds)) = 1 ∧
      (computeReportPayload "facility-1" ⟨2026, 1, 1, 6, 30, 0⟩ none overCapPatients
          (some oneBedFacility) none "TS").bedUtilization = some 2 ∧
      ¬ ((2 : ℚ) ≤ 1) := by
  refine ⟨by decide, ?_, by norm_num⟩
  rw [computeReportPayload_bedUtilization]
  have h2 : (getActiveAtSlot overCapPatients
      (slotIdToDate (currentSlotIdOf ⟨2026, 1, 1, 6, 30, 0⟩ none))).length = 2 := by decide
  have h1 : numOr0 ((some oneBedFacility).bind (·.totalBeds)) = 1 := by decide
  rw [h2, h1]
  norm_num

/-- C4 amended: the derived ratios written by the aggregator are exactly `0`
when their denominator is `0` (`bedUtilization` for `totalBeds = 0`,
`icuStressIndex` for `icuBeds = 0`, `fluGrowthRate` when the previous slot's
`fluCases` is absent or `0`); the guards mean no division by zero is ever
evaluated, so no `NaN`/`Infinity` arises (the `ℚ` embedding carries the
values exactly); both ratios are nonnegative, and they lie in `[0,1]` when
capacity is positive PROVIDED occupancy does not exceed capacity — the code
does not clamp, so above capacity the ratio exceeds 1 (see the
counterexample). -/
theorem C4_ratio_guards (fid : String) (now : LocalDT) (tgt : Option String)
    (patients : List PatientDoc) (facilityDoc : Option FacilityDoc)
    (prevData : Option ReportData) (nowISO : String) :
    (numOr0 (facilityDoc.bind (·.totalBeds)) = 0 →
      (computeReportPayload fid now tgt patients facilityDoc prevData
        nowISO).bedUtilization = some 0) ∧
    (numOr0 (facilityDoc.bind (·.icuBeds)) = 0 →
      (computeReportPayload fid now tgt patients facilityDoc prevData
        nowISO).icuStressIndex = some 0) ∧
    ((prevData = none ∨
        ∃ pd, prevData = some pd ∧ (pd.fluCases = none ∨ pd.fluCases = some 0)) →
      (computeReportPayload fid now tgt patients facilityDoc prevData
        nowISO).fluGrowthRate = some 0) ∧
    (∃ u : ℚ, (computeReportPayload fid now tgt patients facilityDoc prevData
        nowISO).bedUtilization = some u ∧ 0 ≤ u ∧
      ((getActiveAtSlot patients (slotIdToDate (currentSlotIdOf now tgt))).length ≤
          numOr0 (facilityDoc.bind (·.totalBeds)) → u ≤ 1)) ∧
    (∃ s : ℚ, (computeReportPayload fid now tgt patients facilityDoc prevData
        nowISO).icuStressIndex = some s ∧ 0 ≤ s ∧
      (((getActiveAtSlot patients (slotIdToDate (currentSlotIdOf now tgt))).filter
            fun p => p.icuRequired == some true).length ≤
          numOr0 (facilityDoc.bind (·.icuBeds)) → s ≤ 1)) := by
  refine ⟨?_, ?_, computeReportPayload_fluGrowthRate_guard _ _ _ _ _ _ _, ?_, ?_⟩
  · intro h0
    rw [computeReportPayload_bedUtilization, h0]
    norm_num
  · intro h0
    rw [computeReportPayload_icuStressIndex, h0]
    norm_num
  · refine ⟨_, computeReportPayload_bedUtilization _ _ _ _ _ _ _, ?_, ?_⟩
    · by_cases htb : 0 < numOr0 (facilityDoc.bind (·.totalBeds))
      · rw [if_pos htb]
        positivity
      · rw [if_neg htb]
    · intro hle
      by_cases htb : 0 < numOr0 (facilityDoc.bind (·.totalBeds))
      · rw [if_pos htb]
        rw [div_le_one (by exact_mod_cast htb)]
        exact_mod_cast hle
      · rw [if_neg htb]
        norm_num
  · refine ⟨_, computeReportPayload_icuStressIndex _ _ _ _ _ _ _, ?_, ?_⟩
    · by_cases hicu : 0 < numOr0 (facilityDoc.bind (·.icuBeds))
      · rw [if_pos hicu]
        positivity
      · rw [if_neg hicu]
    · intro hle
      by_cases hicu : 0 < numOr0 (facilityDoc.bind (·.icuBeds))
      · rw [if_pos hicu]
        rw [div_le_one (by exact_mod_cast hicu)]
        exact_mod_cast hle
      · rw [if_neg hicu]
        norm_num

/-- C4 witness: the amended statement applied with no facility document (both
capacities 0) and no previous report, every guard discharged. -/
theorem C4_ratio_guards_witness :
    (computeReportPayload "facility-1" ⟨2026, 1, 1, 6, 30, 0⟩ none [] none none
        "TS").bedUtilization = some 0 ∧
      (computeReportPayload "facility-1" ⟨2026, 1, 1, 6, 30, 0⟩ none [] none none
        "TS").icuStressIndex = some 0 ∧
      (computeReportPayload "facility-1" ⟨2026, 1, 1, 6, 30, 0⟩ none [] none none
        "TS").fluGrowthRate = some 0 := by
  have h := C4_ratio_guards "facility-1" ⟨2026, 1, 1, 6, 30, 0⟩ none [] none none "TS"
  exact ⟨h.1 (by decide), h.2.1 (by decide), h.2.2.1 (Or.inl rfl)⟩

/-- C5: running the aggregator twice in succession for the same slot with the
same patient snapshot, capacity config and stored previous-slot report
produces a second document identical to the first on every field except the
wall-clock write `timestamp` — in particular every derived field
(`availableBeds`, `bedUtilization`, `icuStressIndex`, `fluGrowthRate`,
`riskScore` and the three alert flags) is identical.  The second run reads
the same previous-slot report because the first run wrote only under the
current slot's key, which always differs from the previous slot's key. -/
theorem C5_aggregation_idempotent (fid : String) (now : LocalDT) (iso1 iso2 : String)
    (patients : List PatientDoc) (facilityDoc : Option FacilityDoc)
    (tgt : Option String) (st : Store) (hfid : fid ≠ "") (hnow : now.Valid)
    (hyear : 1 ≤ now.year) (htgt : WfTargetDate tgt) :
    ∃ r1 r2,
      (update6HourReport fid now iso1 patients facilityDoc tgt st).get
          (currentSlotIdOf now tgt) = some r1 ∧
      (update6HourReport fid now iso2 patients facilityDoc tgt
          (update6HourReport fid now iso1 patients facilityDoc tgt st)).get
          (currentSlotIdOf now tgt) = some r2 ∧
      r2.slotId = r1.slotId ∧ r2.facilityId = r1.facilityId ∧ r2.date = r1.date ∧
      r2.slot = r1.slot ∧ r2.autoFilled = r1.autoFilled ∧
      r2.scheduledRun = r1.scheduledRun ∧ r2.occupiedBeds = r1.occupiedBeds ∧
      r2.icuOccupied = r1.icuOccupied ∧ r2.fluCases = r1.fluCases ∧
      r2.dengueCases = r1.dengueCases ∧ r2.covidCases = r1.covidCases ∧
      r2.emergencyCases = r1.emergencyCases ∧ r2.newAdmissions = r1.newAdmissions ∧
      r2.discharges = r1.discharges ∧ r2.totalBeds = r1.totalBeds ∧
      r2.icuBeds = r1.icuBeds ∧ r2.availableBeds = r1.availableBeds ∧
      r2.bedUtilization = r1.bedUtilization ∧ r2.icuStressIndex = r1.icuStressIndex ∧
      r2.fluGrowthRate = r1.fluGrowthRate ∧ r2.riskScore = r1.riskScore ∧
      r2.overCapacity = r1.overCapacity ∧ r2.icuCritical = r1.icuCritical ∧
      r2.diseaseSpike = r1.diseaseSpike ∧ r2.timestamp = some iso2 ∧
      r1.timestamp = some iso1 := by
  have hne := prevSlotId_ne_currentSlotId hnow hyear htgt
  simp only [update6HourReport, if_neg hfid]
  have h1 : (st.setMerge (currentSlotIdOf now tgt)
        (computeReportPayload fid now tgt patients facilityDoc
          (st.get (prevSlotIdOf now tgt)) iso1)).get (currentSlotIdOf now tgt) =
      some (mergeInto ((st.get (currentSlotIdOf now tgt)).getD {})
        (computeReportPayload fid now tgt patients facilityDoc
          (st.get (prevSlotIdOf now tgt)) iso1)) :=
    Store.get_setMerge_self _ _ _
  have hprev2 : (st.setMerge (currentSlotIdOf now tgt)
        (computeReportPayload fid now tgt patients facilityDoc
          (st.get (prevSlotIdOf now tgt)) iso1)).get (prevSlotIdOf now tgt) =
      st.get (prevSlotIdOf now tgt) :=
    Store.get_setMerge_ne _ _ hne
  refine ⟨mergeInto ((st.get (currentSlotIdOf now tgt)).getD {})
      (computeReportPayload fid now tgt patients facilityDoc
        (st.get (prevSlotIdOf now tgt)) iso1),
    mergeInto (mergeInto ((st.get (currentSlotIdOf now tgt)).getD {})
        (computeReportPayload fid now tgt patients facilityDoc
          (st.get (prevSlotIdOf now tgt)) iso1))
      (computeReportPayload fid now tgt patients facilityDoc
        (st.get (prevSlotIdOf now tgt)) iso2),
    h1, ?_, rfl, rfl, rfl, mor_absorb _ _, rfl, rfl, rfl, rfl, rfl, rfl, rfl, rfl,
    rfl, rfl, rfl, rfl, rfl, rfl, rfl, rfl, rfl, rfl, rfl, rfl, rfl, rfl⟩
  rw [hprev2, Store.get_setMerge_self, h1]
  rfl

/-- C5 witness: concrete clock inside the `06` slot, no target date, empty
store and patient set. -/
theorem C5_aggregation_idempotent_witness :
    ∃ r1 r2,
      (update6HourReport "facility-1" ⟨2026, 1, 1, 6, 30, 0⟩ "T1" [] none none []).get
          (currentSlotIdOf ⟨2026, 1, 1, 6, 30, 0⟩ none) = some r1 ∧
      (update6HourReport "facility-1" ⟨2026, 1, 1, 6, 30, 0⟩ "T2" [] none none
          (update6HourReport "facility-1" ⟨2026, 1, 1, 6, 30, 0⟩ "T1" [] none none
            [])).get (currentSlotIdOf ⟨2026, 1, 1, 6, 30, 0⟩ none) = some r2 ∧
      r2.slotId = r1.slotId ∧ r2.facilityId = r1.facilityId ∧ r2.date = r1.date ∧
      r2.slot = r1.slot ∧ r2.autoFilled = r1.autoFilled ∧
      r2.scheduledRun = r1.scheduledRun ∧ r2.occupiedBeds = r1.occupiedBeds ∧
      r2.icuOccupied = r1.icuOccupied ∧ r2.fluCases = r1.fluCases ∧
      r2.dengueCases = r1.dengueCases ∧ r2.covidCases = r1.covidCases ∧
      r2.emergencyCases = r1.emergencyCases ∧ r2.newAdmissions = r1.newAdmissions ∧
      r2.discharges = r1.discharges ∧ r2.totalBeds = r1.totalBeds ∧
      r2.icuBeds = r1.icuBeds ∧ r2.availableBeds = r1.availableBeds ∧
      r2.bedUtilization = r1.bedUtilization ∧ r2.icuStressIndex = r1.icuStressIndex ∧
      r2.fluGrowthRate = r1.fluGrowthRate ∧ r2.riskScore = r1.riskScore ∧
      r2.overCapacity = r1.overCapacity ∧ r2.icuCritical = r1.icuCritical ∧
      r2.diseaseSpike = r1.diseaseSpike ∧ r2.timestamp = some "T2" ∧
      r1.timestamp = some "T1" :=
  C5_aggregation_idempotent "facility-1" ⟨2026, 1, 1, 6, 30, 0⟩ "T1" "T2" [] none none []
    (by decide) (by decide) (by decide) (Or.inl rfl)

/-- C7: the slot calendar functions are mutually inverse.  (i) every
well-formed slot id — rendered year, zero-padded valid month/day, hour label
in {00,06,12,18} — parses via `slotIdToDate` and re-renders via
`dateToSlotId` to itself; (ii) for every valid instant `t`, parsing `t`'s
slot id yields a window start `w` with `w ≤ t < w + 6 hours`; (iii)
`nextSlotBoundary t` is the least slot window start strictly after `t`,
rolling over correctly at the 18:00 → next-day-00:00 boundary (the day
rollover is `nextDay`, which carries months and years). -/
theorem C7_slot_calendar :
    (∀ y m d hh : Nat, 1 ≤ m → m ≤ 12 → 1 ≤ d → d ≤ daysInMonth y m →
      (hh = 0 ∨ hh = 6 ∨ hh = 12 ∨ hh = 18) →
      (slotIdToDate (natRepr y ++ "-" ++ pad2 m ++ "-" ++ pad2 d ++ "_" ++ pad2 hh)).map
          dateToSlotId =
        some (natRepr y ++ "-" ++ pad2 m ++ "-" ++ pad2 d ++ "_" ++ pad2 hh)) ∧
    (∀ t : LocalDT, t.Valid → ∃ w, slotIdToDate (dateToSlotId t) = some w ∧
      w.key ≤ t.key ∧ t.key < (addSixHours w).key) ∧
    (∀ t : LocalDT, t.Valid → (nextSlotBoundary t).Valid ∧
      IsSlotStart (nextSlotBoundary t) ∧ t.key < (nextSlotBoundary t).key ∧
      ∀ w : LocalDT, w.Valid → IsSlotStart w → t.key < w.key →
        (nextSlotBoundary t).key ≤ w.key) := by
  refine ⟨?_, ?_, ?_⟩
  · intro y m d hh hm hm2 hd hd2 hs
    rw [slotIdToDate_format y m d hh hm hm2 hd hd2
      (by rcases hs with rfl | rfl | rfl | rfl <;> omega)]
    simp only [Option.map_some']
    have hdts : dateToSlotId ⟨y, m, d, hh, 0, 0⟩ =
        natRepr y ++ "-" ++ pad2 m ++ "-" ++ pad2 d ++ "_" ++ pad2 hh := by
      show natRepr y ++ "-" ++ pad2 m ++ "-" ++ pad2 d ++ "_" ++ slotOfHour hh = _
      rw [slotOfHour_eq_pad2, slotFloor_idem hs]
    rw [hdts]
  · intro t ht
    exact ⟨_, slotIdToDate_dateToSlotId ht, (slot_window ht).1, (slot_window ht).2⟩
  · intro t ht
    obtain ⟨v, s, k⟩ := nextSlotBoundary_spec ht
    exact ⟨v, s, k, fun w hw hws hlt => nextSlotBoundary_min ht hw hws hlt⟩

/-- C7 witness: all three parts at concrete date-times around a slot id
`2026-02-26_06` and the instant 2026-02-26 07:15:00. -/
theorem C7_slot_calendar_witness :
    ((slotIdToDate (natRepr 2026 ++ "-" ++ pad2 2 ++ "-" ++ pad2 26 ++ "_" ++
          pad2 6)).map dateToSlotId =
      some (natRepr 2026 ++ "-" ++ pad2 2 ++ "-" ++ pad2 26 ++ "_" ++ pad2 6)) ∧
    (∃ w, slotIdToDate (dateToSlotId ⟨2026, 2, 26, 7, 15, 0⟩) = some w ∧
      w.key ≤ (⟨2026, 2, 26, 7, 15, 0⟩ : LocalDT).key ∧
      (⟨2026, 2, 26, 7, 15, 0⟩ : LocalDT).key < (addSixHours w).key) ∧
    ((nextSlotBoundary ⟨2026, 2, 26, 7, 15, 0⟩).Valid ∧
      IsSlotStart (nextSlotBoundary ⟨2026, 2, 26, 7, 15, 0⟩) ∧
      (⟨2026, 2, 26, 7, 15, 0⟩ : LocalDT).key <
        (nextSlotBoundary ⟨2026, 2, 26, 7, 15, 0⟩).key) ∧
    (nextSlotBoundary ⟨2026, 2, 26, 7, 15, 0⟩).key ≤
      (⟨2026, 2, 26, 18, 0, 0⟩ : LocalDT).key := by
  have h := C7_slot_calendar
  have h3 := h.2.2 ⟨2026, 2, 26, 7, 15, 0⟩ (by decide)
  exact ⟨h.1 2026 2 26 6 (by decide) (by decide) (by decide) (by decide) (by decide),
    h.2.1 ⟨2026, 2, 26, 7, 15, 0⟩ (by decide),
    ⟨h3.1, h3.2.1, h3.2.2.1⟩,
    h3.2.2.2 ⟨2026, 2, 26, 18, 0, 0⟩ (by decide) (by decide) (by decide)⟩

/-- C8: the aggregator's activity filter admits a patient at a window start
`w` exactly when the admission date parses and its local midnight is at or
before `w`, and either the status is not 'discharged', or the discharge date
is absent (or the empty string), or the discharge date parses and its
end-of-day instant (23:59:59, as the source constructs it) is after `w`. -/
theorem C8_active_patient_filter (patients : List PatientDoc) (w : LocalDT)
    (p : PatientDoc) :
    p ∈ getActiveAtSlot patients (some w) ↔
      p ∈ patients ∧
        ((∃ y m d, (p.admissionDate.bind fun s => parseDateYMD s.data) = some (y, m, d) ∧
            (⟨y, m, d, 0, 0, 0⟩ : LocalDT).key ≤ w.key) ∧
          (p.status ≠ some "discharged" ∨ jsFalsyStr p.dischargeDate = true ∨
            ∃ y2 m2 d2, (p.dischargeDate.bind fun s => parseDateYMD s.data) =
                some (y2, m2, d2) ∧
              w.key < (⟨y2, m2, d2, 23, 59, 59⟩ : LocalDT).key)) := by
  rw [getActiveAtSlot, List.mem_filter, and_congr_right_iff]
  intro _
  cases hadm : p.admissionDate with
  | none => simp [activeAtSlot, hadm]
  | some s =>
    cases hp : parseDateYMD s.data with
    | none => simp [activeAtSlot, hadm, hp]
    | some ymd =>
      obtain ⟨y, m, d⟩ := ymd
      simp only [activeAtSlot, hadm, hp, Option.some_bind']
      by_cases hkey : (⟨y, m, d, 0, 0, 0⟩ : LocalDT).key ≤ w.key
      · rw [if_neg (not_not_intro hkey)]
        by_cases hguard :
            (jsFalsyStr p.dischargeDate || p.status != some "discharged") = true
        · rw [if_pos hguard]
          refine iff_of_true rfl ⟨⟨y, m, d, rfl, hkey⟩, ?_⟩
          rcases (by simpa using hguard :
              jsFalsyStr p.dischargeDate = true ∨ ¬ p.status = some "discharged") with
            hfal | hst
          · exact Or.inr (Or.inl hfal)
          · exact Or.inl hst
        · rw [if_neg hguard]
          have hfal : jsFalsyStr p.dischargeDate = false := by
            cases hjf : jsFalsyStr p.dischargeDate
            · rfl
            · exact absurd (by simp [hjf]) hguard
          have hst : p.status = some "discharged" := by
            by_contra hne
            exact hguard (by simp [bne_iff_ne, hne])
          cases hdis : p.dischargeDate with
          | none => rw [hdis] at hfal; simp [jsFalsyStr] at hfal
          | some ds =>
            rw [hdis] at hfal
            cases hd : parseDateYMD ds.data with
            | none =>
              refine iff_of_false (by simp [hd]) ?_
              rintro ⟨_, hne | hjf | ⟨y3, m3, d3, hparse, _⟩⟩
              · exact absurd hst hne
              · rw [hfal] at hjf; exact Bool.noConfusion hjf
              · have hparse' : parseDateYMD ds.data = some (y3, m3, d3) := hparse
                rw [hd] at hparse'
                exact Option.noConfusion hparse'
            | some ymd2 =>
              obtain ⟨y2, m2, d2⟩ := ymd2
              simp only [hd, decide_eq_true_eq]
              constructor
              · intro hlt
                exact ⟨⟨y, m, d, rfl, hkey⟩, Or.inr (Or.inr ⟨y2, m2, d2, hd, hlt⟩)⟩
              · rintro ⟨_, hne | hjf | ⟨y3, m3, d3, hparse, hlt⟩⟩
                · exact absurd hst hne
                · rw [hfal] at hjf; exact Bool.noConfusion hjf
                · have hparse' : parseDateYMD ds.data = some (y3, m3, d3) := hparse
                  rw [hd] at hparse'
                  have heq := Option.some.inj hparse'
                  simp only [Prod.mk.injEq] at heq
                  obtain ⟨rfl, rfl, rfl⟩ := heq
                  exact hlt
      · rw [if_pos hkey]
        refine iff_of_false (by simp) ?_
        rintro ⟨⟨y', m', d', hparse, hkey'⟩, _⟩
        have heq := Option.some.inj hparse
        simp only [Prod.mk.injEq] at heq
        obtain ⟨rfl, rfl, rfl⟩ := heq
        exact absurd hkey' hkey

end HospitalReporting
